import Mathlib

/-!
Verification of the openclaw-inspector reverse proxy core.

The JavaScript sources are shallowly embedded: JSON/JS values become an
inductive `JVal`, JS property access and the `in` operator are modelled in an
`Except` monad (they throw `TypeError` on nullish / non-object receivers),
JS numbers are rationals with a distinguished `JVal.nan` marker, and the
callback-driven proxy engine (`handleProxy` / `handleSSE` / `handleBuffered`
in src/proxy.mjs) becomes a function from an upstream-behaviour scenario to
the entry-store update plus an ordered trace of observable effects
(client writes, WebSocket broadcasts, persistence notifications).
-/

namespace OCI

/-- Model of a JavaScript runtime value as it occurs in this codebase:
JSON values plus `undefined` and a `nan` marker. `nan` stands for any
non-numeric result of JS arithmetic (true NaN, or a string produced by
string-typed `+` concatenation); no value of that kind is ever branched on
or inspected by the sources, only stored. -/
inductive JVal where
  | undef : JVal
  | null : JVal
  | nan : JVal
  | bool : Bool → JVal
  | num : ℚ → JVal
  | str : String → JVal
  | arr : List JVal → JVal
  | obj : List (String × JVal) → JVal

/-- First binding of a key in a JS object's field list (keys are unique in
objects produced by JSON.parse and by object literals). -/
def lookupField : List (String × JVal) → String → Option JVal
  | [], _ => none
  | (k, v) :: fs, key => if k = key then some v else lookupField fs key

/-- JS truthiness: `undefined`, `null`, `false`, `0`, `NaN` and `""` are
falsy, everything else is truthy. -/
def JVal.truthy : JVal → Bool
  | .undef => false
  | .null => false
  | .nan => false
  | .bool b => b
  | .num q => decide (q ≠ 0)
  | .str s => decide (s ≠ "")
  | .arr _ => true
  | .obj _ => true

/-- JS property access `v.k` in the `Except` monad: throws `TypeError` on
`null`/`undefined`, yields the field on objects, and `undefined` on
primitives and arrays (none of the field names used by the sources is a
property of a primitive wrapper or of an array). -/
def JVal.getE : JVal → String → Except String JVal
  | .undef, k => .error ("TypeError: cannot read properties of undefined (reading " ++ k ++ ")")
  | .null, k => .error ("TypeError: cannot read properties of null (reading " ++ k ++ ")")
  | .obj fs, k => .ok ((lookupField fs k).getD .undef)
  | _, _ => .ok (.undef)

/-- Total property access, used for optional chaining `v?.k` (which
short-circuits nullish receivers to `undefined`) and wherever the receiver
is known not to be nullish. Agrees with `JVal.getE` on non-nullish values. -/
def JVal.getQ : JVal → String → JVal
  | .obj fs, k => (lookupField fs k).getD .undef
  | _, _ => (.undef)

/-- The JS `in` operator: field membership on objects, throws `TypeError`
on any primitive receiver (the field names used here are never array
properties). -/
def jsIn (k : String) : JVal → Except String Bool
  | .obj fs => .ok (lookupField fs k).isSome
  | .arr _ => .ok false
  | v => .error ("TypeError: cannot use in operator to search for " ++ k ++ " in a primitive: " ++ (match v with | .undef => "undefined" | _ => "value"))

/-- JS `a || b`. -/
def jsOr (a b : JVal) : JVal := if a.truthy then a else b

/-- JS `typeof v === \x22object\x22` (true for objects, arrays and `null`). -/
def JVal.typeofObject : JVal → Bool
  | .null => true
  | .obj _ => true
  | .arr _ => true
  | _ => false

/-- JS loose inequality `v != null` (false exactly on `null`/`undefined`). -/
def JVal.neNullish : JVal → Bool
  | .null => false
  | .undef => false
  | _ => true

/-- JS strict equality of a value against a string literal. -/
def JVal.eqStr : JVal → String → Bool
  | .str t, s => t = s
  | _, _ => false

/-- JS `+` as used on token counts: numeric on numbers; every other case
(NaN-producing coercion or string concatenation) is collapsed to the
`JVal.nan` marker, which the sources never branch on. -/
def jsAdd : JVal → JVal → JVal
  | .num a, .num b => .num (a + b)
  | _, _ => .nan

/-- Numeric view of a JS value as consumed by arithmetic (`*`, `-`):
`none` is NaN. `null` coerces to 0, booleans to 0/1, `undefined` to NaN;
string/array/object coercions (never exercised on well-formed provider
responses) are collapsed to NaN. -/
def JVal.toNumArith : JVal → Option ℚ
  | .num q => some q
  | .null => some 0
  | .bool b => some (if b then 1 else 0)
  | _ => none

/-- Chars-level model of JS `String.prototype.startsWith`. -/
def strStartsWith (s p : String) : Bool := p.data.isPrefixOf s.data

/-- Decidable equality for `Except` results, used to state concrete
evaluations of the embedded functions. -/
instance {ε α : Type _} [DecidableEq ε] [DecidableEq α] : DecidableEq (Except ε α) := fun a b =>
  match a, b with
  | .ok x, .ok y => if h : x = y then isTrue (by rw [h]) else isFalse (by simp [h])
  | .error x, .error y => if h : x = y then isTrue (by rw [h]) else isFalse (by simp [h])
  | .ok _, .error _ => isFalse (by simp)
  | .error _, .ok _ => isFalse (by simp)

-- ## Pricing (src/pricing.mjs)

/-- A pricing-table entry: USD per 1M tokens for each token class. -/
structure Price where
  input : ℚ
  output : ℚ
  cacheRead : ℚ
  cacheWrite : ℚ

/-- The normalized usage record produced by the usage parsers
(src/usage-parsers.mjs `UsageResult`). Fields hold raw JS values: on
well-formed provider responses they are numbers and a model string. -/
structure UsageResult where
  model : JVal
  inputTokens : JVal
  outputTokens : JVal
  totalTokens : JVal
  cachedTokens : JVal
  cacheCreatedTokens : JVal

/-- Token field as read by `calculateCost`: `usage.f || 0` then numeric
coercion by the arithmetic that consumes it. -/
def tokVal (v : JVal) : Option ℚ := (jsOr v (.num 0)).toNumArith

/-- The cost formula body of `calculateCost` (src/pricing.mjs lines
213-227): fresh input is `Math.max(0, inputTokens - cachedTokens)`; the
result is a JS number, `none` meaning NaN. -/
def costFormula (p : Price) (u : UsageResult) : Option ℚ := do
  let inp ← tokVal u.inputTokens
  let out ← tokVal u.outputTokens
  let cacheRead ← tokVal u.cachedTokens
  let cacheWrite ← tokVal u.cacheCreatedTokens
  let freshInput := max 0 (inp - cacheRead)
  pure ((freshInput * p.input + out * p.output + cacheRead * p.cacheRead +
      cacheWrite * p.cacheWrite) / 1000000)

/-- The prefix-match loop of `calculateCost` (src/pricing.mjs lines
204-209): first entry, in table iteration order, whose key is a prefix of
the model id or vice versa; `modelId.startsWith` throws when the model id
is not a string and the loop body runs at least once. -/
def prefixLookup : List (String × Price) → JVal → Except String (Option Price)
  | [], _ => .ok none
  | (key, val) :: rest, .str m =>
      if strStartsWith m key || strStartsWith key m then .ok (some val)
      else prefixLookup rest (.str m)
  | _ :: _, _ => .error "TypeError: modelId.startsWith is not a function"

/-- Exact-match lookup `pricingMap.get(modelId)` (insertion-ordered map as
an association list); a non-string key is absent. -/
def exactLookup (table : List (String × Price)) : JVal → Option Price
  | .str m => (table.find? (fun p => p.1 == m)).map Prod.snd
  | _ => none

/-- Embedding of `calculateCost` (src/pricing.mjs lines 198-228).
Returns the computed USD cost (`none` = NaN) or the thrown TypeError. -/
def calculateCost (table : List (String × Price)) (modelId : JVal)
    (usage : Option UsageResult) : Except String (Option ℚ) :=
  match usage with
  | none => .ok (some 0)
  | some u =>
    match exactLookup table modelId with
    | some p => .ok (costFormula p u)
    | none => do
      match ← prefixLookup table modelId with
      | some p => .ok (costFormula p u)
      | none => .ok (some 0)

-- ## Usage parsers (src/usage-parsers.mjs)

/-- Embedding of `parseAnthropicUsage`: non-streaming Anthropic usage. -/
def parseAnthropicUsage (body : JVal) : Except String UsageResult := do
  let usage := jsOr (← body.getE "usage") (.obj [])
  let m := jsOr (← body.getE "model") (.str "?")
  let it := jsOr (← usage.getE "input_tokens") (.num 0)
  let ot := jsOr (← usage.getE "output_tokens") (.num 0)
  let cr := jsOr (← usage.getE "cache_read_input_tokens") (.num 0)
  let cc := jsOr (← usage.getE "cache_creation_input_tokens") (.num 0)
  pure { model := m
         inputTokens := it
         outputTokens := ot
         totalTokens := jsAdd it ot
         cachedTokens := cr
         cacheCreatedTokens := cc }

/-- Embedding of `parseOpenAIUsage`: non-streaming OpenAI-compatible usage. -/
def parseOpenAIUsage (body : JVal) : Except String UsageResult := do
  let usage := jsOr (← body.getE "usage") (.obj [])
  let inp := jsOr (← usage.getE "prompt_tokens") (jsOr (← usage.getE "input_tokens") (.num 0))
  let out := jsOr (← usage.getE "completion_tokens") (jsOr (← usage.getE "output_tokens") (.num 0))
  let total := jsOr (← usage.getE "total_tokens") (jsAdd inp out)
  let cached := jsOr ((← usage.getE "prompt_tokens_details").getQ "cached_tokens")
      (jsOr ((← usage.getE "input_tokens_details").getQ "cached_tokens") (.num 0))
  let m := jsOr (← body.getE "model") (.str "?")
  pure { model := m
         inputTokens := inp
         outputTokens := out
         totalTokens := total
         cachedTokens := cached
         cacheCreatedTokens := .num 0 }

/-- Embedding of `parseGenericUsage`: shape-dispatching fallback parser.
The JS `in` operator throws a TypeError when `body.usage` is a truthy
primitive. -/
def parseGenericUsage (body : JVal) : Except String UsageResult := do
  let usage := jsOr (← body.getE "usage") (.obj [])
  if (← jsIn "input_tokens" usage) && !(← jsIn "prompt_tokens" usage) then
    parseAnthropicUsage body
  else if (← jsIn "prompt_tokens" usage) || (← jsIn "completion_tokens" usage) then
    parseOpenAIUsage body
  else
    let inp := jsOr (← usage.getE "input_tokens") (jsOr (← usage.getE "prompt_tokens") (.num 0))
    let out := jsOr (← usage.getE "output_tokens") (jsOr (← usage.getE "completion_tokens") (.num 0))
    let m := jsOr (← body.getE "model") (.str "?")
    pure { model := m
           inputTokens := inp
           outputTokens := out
           totalTokens := jsOr (← usage.getE "total_tokens") (jsAdd inp out)
           cachedTokens := jsOr (← usage.getE "cache_read_input_tokens")
             (jsOr ((← usage.getE "prompt_tokens_details").getQ "cached_tokens") (.num 0))
           cacheCreatedTokens := jsOr (← usage.getE "cache_creation_input_tokens") (.num 0) }

/-- Loop state of `accumulateAnthropicStreamUsage`. -/
structure AnthAcc where
  model : JVal
  inputTokens : JVal
  outputTokens : JVal
  cachedTokens : JVal
  cacheCreatedTokens : JVal

/-- One iteration of the `accumulateAnthropicStreamUsage` event loop. -/
def anthStep (acc : AnthAcc) (evt : JVal) : Except String AnthAcc := do
  let t ← evt.getE "type"
  let acc ← do
    if t.eqStr "message_start" then
      let msg ← evt.getE "message"
      if msg.truthy then
        let mo := jsOr (← msg.getE "model") acc.model
        let u := jsOr (← msg.getE "usage") (.obj [])
        pure { acc with
               model := mo
               inputTokens := jsOr (← u.getE "input_tokens") (.num 0)
               cachedTokens := jsOr (← u.getE "cache_read_input_tokens") (.num 0)
               cacheCreatedTokens := jsOr (← u.getE "cache_creation_input_tokens") (.num 0) }
      else pure acc
    else pure acc
  if t.eqStr "message_delta" then
    let u := jsOr (← evt.getE "usage") (.obj [])
    let ot ← u.getE "output_tokens"
    let it ← u.getE "input_tokens"
    let cr ← u.getE "cache_read_input_tokens"
    let cc ← u.getE "cache_creation_input_tokens"
    pure { acc with
           outputTokens := if ot.neNullish then ot else acc.outputTokens
           inputTokens := if it.neNullish then it else acc.inputTokens
           cachedTokens := if cr.neNullish then cr else acc.cachedTokens
           cacheCreatedTokens := if cc.neNullish then cc else acc.cacheCreatedTokens }
  else pure acc

/-- Embedding of `accumulateAnthropicStreamUsage`: usage split across
`message_start` (input side) and `message_delta` (cumulative output side)
events; later values win. -/
def accumulateAnthropicStreamUsage (events : List JVal) : Except String UsageResult := do
  let acc ← events.foldlM anthStep
    { model := .str "?"
      inputTokens := .num 0
      outputTokens := .num 0
      cachedTokens := .num 0
      cacheCreatedTokens := .num 0 }
  pure { model := acc.model
         inputTokens := acc.inputTokens
         outputTokens := acc.outputTokens
         totalTokens := jsAdd acc.inputTokens acc.outputTokens
         cachedTokens := acc.cachedTokens
         cacheCreatedTokens := acc.cacheCreatedTokens }

/-- Loop state of `accumulateOpenAIStreamUsage`: the `model` variable and
the `result` variable (null until a usage-carrying event is seen). -/
structure OpenAIAcc where
  model : JVal
  result : Option UsageResult

/-- One iteration of the `accumulateOpenAIStreamUsage` event loop: the
model variable is set by the first event with a truthy model while it still
holds the sentinel; an event whose `usage` is a truthy object rebuilds
`result` from scratch. -/
def openAIStep (acc : OpenAIAcc) (evt : JVal) : Except String OpenAIAcc := do
  let mv ← evt.getE "model"
  let model := if mv.truthy && acc.model.eqStr "?" then mv else acc.model
  let u ← evt.getE "usage"
  if u.truthy && u.typeofObject then
    pure { model := model
           result := some {
             model := jsOr mv model
             inputTokens := jsOr (u.getQ "prompt_tokens") (jsOr (u.getQ "input_tokens") (.num 0))
             outputTokens := jsOr (u.getQ "completion_tokens") (jsOr (u.getQ "output_tokens") (.num 0))
             totalTokens := jsOr (u.getQ "total_tokens") (.num 0)
             cachedTokens := jsOr ((u.getQ "prompt_tokens_details").getQ "cached_tokens")
               (jsOr ((u.getQ "input_tokens_details").getQ "cached_tokens") (.num 0))
             cacheCreatedTokens := .num 0 } }
  else
    pure { model := model
           result := acc.result }

/-- The all-zero usage record with a given model value. -/
def zeroUsage (m : JVal) : UsageResult :=
  { model := m
    inputTokens := .num 0
    outputTokens := .num 0
    totalTokens := .num 0
    cachedTokens := .num 0
    cacheCreatedTokens := .num 0 }

/-- Embedding of `accumulateOpenAIStreamUsage` (src/usage-parsers.mjs lines
410-441): last usage-carrying event wins in full; the zero-total fixup
recomputes input+output. -/
def accumulateOpenAIStreamUsage (events : List JVal) : Except String UsageResult := do
  let acc ← events.foldlM openAIStep { model := .str "?", result := none }
  match acc.result with
  | some r =>
      if !r.totalTokens.truthy then
        pure { r with totalTokens := jsAdd r.inputTokens r.outputTokens }
      else pure r
  | none => pure (zeroUsage acc.model)

/-- The `events.some(...)` probe of `accumulateStreamUsage`, with JS
short-circuiting: stops at the first Anthropic-tagged event. -/
def someAnthropicType : List JVal → Except String Bool
  | [] => .ok false
  | e :: rest => do
      let t ← e.getE "type"
      if t.eqStr "message_start" || t.eqStr "message_delta" then pure true
      else someAnthropicType rest

/-- Embedding of `accumulateStreamUsage` (src/usage-parsers.mjs lines
482-496). The events argument is a JS array at every call site, so the
`!events` half of the emptiness guard reduces to `isEmpty`. -/
def accumulateStreamUsage (events : List JVal) (hint : JVal) : Except String UsageResult := do
  if events.isEmpty then
    pure (zeroUsage (.str "?"))
  else
    let isAnthropic ← if hint.eqStr "anthropic" then pure true else someAnthropicType events
    if isAnthropic then accumulateAnthropicStreamUsage events
    else accumulateOpenAIStreamUsage events

-- ## SSE parsing (src/proxy.mjs parseSSEEvents)

/-- JS `String.prototype.trim` on the character list. -/
def jsTrim (s : String) : String :=
  String.mk (((s.data.dropWhile Char.isWhitespace).reverse.dropWhile Char.isWhitespace).reverse)

/-- JS `text.split(newline)` (keeps empty pieces, including a trailing one). -/
def splitLinesAux : List Char → List Char → List String
  | [], acc => [String.mk acc.reverse]
  | c :: cs, acc =>
      if c = '\n' then String.mk acc.reverse :: splitLinesAux cs []
      else splitLinesAux cs (c :: acc)

/-- Lines of an SSE text, split on the newline character. -/
def splitLines (s : String) : List String := splitLinesAux s.data []

/-- Embedding of `parseSSEEvents` (src/proxy.mjs lines 233-247). `jp` is
the runtime's `JSON.parse`, supplied as an oracle: `none` means the parse
threw and the line is skipped. -/
def parseSSEEvents (jp : String → Option JVal) (text : String) : List JVal :=
  (splitLines text).filterMap (fun line =>
    let trimmed := jsTrim line
    if !strStartsWith trimmed "data:" then none
    else
      let payload := jsTrim (String.mk (trimmed.data.drop 5))
      if payload = "" || payload = "[DONE]" then none
      else jp payload)

/-- Modelled from the spec: `detectApiFamily` lives in src/providers.mjs,
which is not among the sources; per the project documentation the providers
`anthropic`, `minimax` and `zai` use the Anthropic API family and every
other provider the OpenAI-compatible one. -/
def detectApiFamily (provider : String) : String :=
  if provider = "anthropic" || provider = "minimax" || provider = "zai" then "anthropic"
  else "openai"

-- ## Entry store (src/proxy.mjs)

/-- The per-request record created by `handleProxy` (src/proxy.mjs lines
289-307). `cost` and `sseEvents` model properties that are absent (`none`)
until first assigned; `cost` holds a JS number (`none` = NaN) once set. -/
structure Entry where
  id : String
  provider : String
  method : String
  path : String
  status : Option Nat
  state : String
  timestamp : Nat
  duration : Option Nat
  reqHeaders : List (String × String)
  reqBody : JVal
  reqSize : Nat
  reqModel : JVal
  resHeaders : Option (List (String × String))
  resBody : JVal
  resSize : Nat
  usage : Option UsageResult
  error : Option String
  sseEvents : Option (List JVal)
  cost : Option (Option ℚ)

/-- The module-level entry registry of src/proxy.mjs: the `entries` Map
(insertion-ordered, modelled as an association list) and the `entryOrder`
id list (oldest first). -/
structure Store where
  entries : List (String × Entry)
  order : List String

/-- The initial empty registry. -/
def emptyStore : Store := { entries := [], order := [] }

/-- JS `Map.prototype.set`: update in place when the key exists (keeping
its insertion position), else append. -/
def mapSet (m : List (String × Entry)) (k : String) (v : Entry) : List (String × Entry) :=
  if (m.find? (fun p => p.1 == k)).isSome then
    m.map (fun p => if p.1 == k then (k, v) else p)
  else m ++ [(k, v)]

/-- JS `Map.prototype.delete`. -/
def mapDelete (m : List (String × Entry)) (k : String) : List (String × Entry) :=
  m.filter (fun p => !(p.1 == k))

/-- JS `Map.prototype.get`. -/
def mapGet (m : List (String × Entry)) (k : String) : Option Entry :=
  (m.find? (fun p => p.1 == k)).map Prod.snd

/-- Capacity of the circular entry buffer (`MAX_ENTRIES`). -/
def MAX_ENTRIES : Nat := 500

/-- The `while (entryOrder.length > MAX_ENTRIES)` eviction loop of
`storeEntry`, structurally recursive on the order list: while the order
list is longer than the capacity, shift the oldest id and delete its map
binding. -/
def evictAux : List (String × Entry) → List String → Store
  | m, [] => { entries := m, order := [] }
  | m, oldest :: rest =>
      if MAX_ENTRIES < (oldest :: rest).length then evictAux (mapDelete m oldest) rest
      else { entries := m, order := oldest :: rest }

/-- The eviction loop applied to a whole store. -/
def evictLoop (s : Store) : Store := evictAux s.entries s.order

/-- Embedding of `storeEntry` (src/proxy.mjs lines 153-160). -/
def storeEntry (s : Store) (entry : Entry) : Store :=
  evictLoop { entries := mapSet s.entries entry.id entry, order := s.order ++ [entry.id] }

/-- Embedding of `getAllEntries` (src/proxy.mjs lines 37-39): map the
order list through the index and reverse, newest first. -/
def getAllEntries (s : Store) : List (Option Entry) :=
  (s.order.map (mapGet s.entries)).reverse

/-- Embedding of `getEntry`. -/
def getEntry (s : Store) (id : String) : Option Entry := mapGet s.entries id

/-- Embedding of `clearEntries`. -/
def clearEntries (_ : Store) : Store := emptyStore

-- ## Proxy engine (src/proxy.mjs handleProxy / handleSSE / handleBuffered)

/-- The summary view built by `entrySummary` (src/proxy.mjs lines
194-208). `cost` is `entry.cost || 0`, so an absent or NaN cost shows as
0. -/
structure Summary where
  id : String
  provider : String
  method : String
  path : String
  status : Option Nat
  state : String
  timestamp : Nat
  duration : Option Nat
  model : JVal
  usage : Option UsageResult
  cost : ℚ

/-- Embedding of `entrySummary`. -/
def entrySummary (e : Entry) : Summary :=
  { id := e.id
    provider := e.provider
    method := e.method
    path := e.path
    status := e.status
    state := e.state
    timestamp := e.timestamp
    duration := e.duration
    model := jsOr (match e.usage with | some u => u.model | none => .undef)
      (jsOr e.reqModel (.str "?"))
    usage := e.usage
    cost := match e.cost with | some (some q) => q | _ => 0 }

/-- Lower-cased string, for the hop-by-hop header filter. -/
def lowerStr (s : String) : String := String.mk (s.data.map Char.toLower)

/-- The hop-by-hop skip set of `forwardHeaders`. -/
def hopByHop : List String :=
  ["host", "connection", "transfer-encoding", "content-length", "keep-alive"]

/-- Embedding of `forwardHeaders` (src/proxy.mjs lines 216-225). -/
def forwardHeaders (hs : List (String × String)) : List (String × String) :=
  hs.filter (fun p => !(hopByHop.contains (lowerStr p.1)))

/-- The provider/rest split used by `handleProxy` (src/proxy.mjs lines
261-264) and, identically, by the server router (server.mjs lines
171-172): the segment between the leading slash and the next one; the rest
defaults to the root path. -/
def providerRest (url : String) : String × String :=
  let tail := url.data.drop 1
  match tail.findIdx? (fun c => c = '/') with
  | some j => (String.mk (tail.take j), String.mk (tail.drop j))
  | none => (String.mk tail, "/")

/-- JS `targetBase.replace` with the anchored trailing-slashes pattern of
src/proxy.mjs line 312: removes the maximal run of slashes at the end. -/
def stripTrailingSlashes (s : String) : String :=
  String.mk ((s.data.reverse.dropWhile (fun c => c = '/')).reverse)

/-- Upstream URL construction (src/proxy.mjs line 312): strip trailing
slashes from the base, then concatenate the rest path directly. -/
def buildUpstreamUrl (targetBase rest : String) : String :=
  stripTrailingSlashes targetBase ++ rest

/-- Characters after the scheme separator of an absolute URL. -/
def afterSchemeAux : List Char → List Char
  | ':' :: '/' :: '/' :: rest => rest
  | _ :: rest => afterSchemeAux rest
  | [] => []

/-- Host component of an absolute http(s) URL, as the runtime's URL class
computes it for the well-formed URLs this proxy builds: the authority
between the scheme separator and the next slash. -/
def urlHost (u : String) : String :=
  String.mk ((afterSchemeAux u.data).takeWhile (fun c => c ≠ '/'))

/-- Helper for the substring test: does `sub` occur in the list? -/
def containsSub (sub : List Char) : List Char → Bool
  | [] => sub.isPrefixOf []
  | c :: cs => sub.isPrefixOf (c :: cs) || containsSub sub cs

/-- JS `String.prototype.includes`. -/
def strIncludes (s sub : String) : Bool := containsSub sub.data s.data

/-- The SSE content-type test of the response callback (src/proxy.mjs
lines 329-330). Node lowercases incoming header names, so the headers map
is keyed in lower case. -/
def isSSEHeaders (hdrs : List (String × String)) : Bool :=
  let contentType := (((hdrs.find? (fun p => p.1 == "content-type")).map Prod.snd).getD "")
  strIncludes contentType "text/event-stream" || strIncludes contentType "stream"

/-- The JS object passed to `JSON.stringify` for an error response body. -/
def errBody (msg : String) : JVal := .obj [("error", .str msg)]

/-- One observable side effect of a request run, in program order:
WebSocket broadcasts, persistence notifications (`recordRequest`), the
outbound connection, and writes on the client response. A `resEnd` payload
is the object serialized into the final client write, `none` for a bare
`res.end()`. -/
inductive Effect where
  | broadcast (ty : String) (s : Summary)
  | record (e : Entry)
  | upstreamConnect (url : String) (method : String)
      (headers : List (String × String)) (body : String)
  | resWriteHead (status : Nat) (headers : List (String × String))
  | resWrite (chunk : String)
  | resEnd (payload : Option JVal)

/-- Behaviour of the upstream connection for one request, as seen by the
handlers `handleProxy` attaches: the outbound request errors before any
response; or a response arrives (status, headers, relayed chunks) and the
run finishes with the response stream ending normally (`streamErr = none`),
the response stream erroring, or — in `respThenConnError` — the outbound
request erroring after response headers were already mirrored. -/
inductive UpstreamScenario where
  | connError (msg : String)
  | respThenConnError (status : Nat) (headers : List (String × String))
      (chunks : List String) (msg : String)
  | resp (status : Nat) (headers : List (String × String))
      (chunks : List String) (streamErr : Option String)

/-- An inbound client request. `bodyJson` is the runtime `JSON.parse`
oracle applied to the raw body (`none` = the parse threw). Header names
are lower-cased, as Node delivers them. -/
structure ReqInfo where
  url : String
  method : String
  headers : List (String × String)
  bodyRaw : String
  bodyJson : Option JVal

/-- The request-body parse and model-field read of `handleProxy` (lines
279-286, one try/catch): when the parse throws, `reqJson` stays null and
the model stays the sentinel; when the parse yields a nullish value the
model read throws and is caught likewise. -/
def reqParseModel (bodyJson : Option JVal) : JVal × JVal :=
  match bodyJson with
  | none => (.null, .str "?")
  | some v =>
    match v.getE "model" with
    | .error _ => (v, .str "?")
    | .ok m => (v, jsOr m (.str "?"))

/-- The entry literal of `handleProxy` (lines 289-307). -/
def initEntry (uuid provider method rest : String) (t0 : Nat)
    (reqHeaders : List (String × String)) (bodyRaw : String)
    (bodyJson : Option JVal) : Entry :=
  let (reqJson, reqModel) := reqParseModel bodyJson
  { id := uuid
    provider := provider
    method := method
    path := rest
    status := none
    state := "pending"
    timestamp := t0
    duration := none
    reqHeaders := reqHeaders
    reqBody := jsOr reqJson (.str bodyRaw)
    reqSize := bodyRaw.data.length
    reqModel := reqModel
    resHeaders := none
    resBody := .null
    resSize := 0
    usage := none
    error := none
    sseEvents := none
    cost := none }

/-- The cost-assignment expression shared by both finalize paths:
`calculateCost(entry.usage?.model || entry.reqModel, entry.usage)`. -/
def costLine (table : List (String × Price)) (e : Entry) : Except String (Option ℚ) :=
  calculateCost table
    (jsOr (match e.usage with | some u => u.model | none => .undef) e.reqModel) e.usage

/-- In-place mutation of the entry object referenced from the Map: the
stored binding at the entry's id (when still present) reflects the
update. -/
def updateEntry (s : Store) (e : Entry) : Store :=
  { s with entries := s.entries.map (fun p => if p.1 == e.id then (e.id, e) else p) }

/-- The end handler of `handleSSE` (src/proxy.mjs lines 380-397):
`res.end()`, record response text/size/duration, mark done, parse and keep
the SSE events, then usage, cost, update broadcast and persistence. When
`accumulateStreamUsage` or `calculateCost` throws (no try/catch in this
handler) the handler aborts after the fields assigned so far: no broadcast
and no persistence call. -/
def sseEndHandler (jp : String → Option JVal) (table : List (String × Price))
    (provider : String) (chunks : List String) (t1 : Nat) (e : Entry) :
    Entry × List Effect :=
  let fullText := String.join chunks
  let events := parseSSEEvents jp fullText
  let apiFamily := detectApiFamily provider
  let e1 := { e with
              resBody := .str fullText
              resSize := (chunks.map (fun c => c.data.length)).sum
              duration := some (t1 - e.timestamp)
              state := "done"
              sseEvents := some events }
  match accumulateStreamUsage events
      (.str (if apiFamily = "anthropic" then "anthropic" else "openai")) with
  | .error _ => (e1, [.resEnd none])
  | .ok u =>
    let e2 := { e1 with usage := some u }
    match costLine table e2 with
    | .error _ => (e2, [.resEnd none])
    | .ok c =>
      let e3 := { e2 with cost := some c }
      (e3, [.resEnd none, .broadcast "update" (entrySummary e3), .record e3])

/-- The end handler of `handleBuffered` (src/proxy.mjs lines 424-443):
`res.end()`, record size/duration, mark done; inside a try/catch, parse the
body, store it, extract usage and compute cost — the catch stores the raw
text instead (overwriting any earlier body assignment, keeping any usage
already assigned). Broadcast and persistence run afterwards in every
case. -/
def bufferedEndHandler (jp : String → Option JVal) (table : List (String × Price))
    (chunks : List String) (t1 : Nat) (e : Entry) : Entry × List Effect :=
  let body := String.join chunks
  let e1 := { e with
              resSize := body.data.length
              duration := some (t1 - e.timestamp)
              state := "done" }
  let e2 :=
    match jp body with
    | none => { e1 with resBody := .str body }
    | some json =>
      let eA := { e1 with resBody := json }
      match parseGenericUsage json with
      | .error _ => { eA with resBody := .str body }
      | .ok u =>
        let eB := { eA with usage := some u }
        match costLine table eB with
        | .error _ => { eB with resBody := .str body }
        | .ok c => { eB with cost := some c }
  (e2, [.resEnd none, .broadcast "update" (entrySummary e2), .record e2])

/-- The proxyRes error handler of `handleSSE` (lines 399-405): finalize as
error, broadcast the update, end the client stream with no payload — and
do not notify persistence. -/
def sseErrorHandler (msg : String) (t1 : Nat) (e : Entry) : Entry × List Effect :=
  let e1 := { e with
              state := "error"
              error := some msg
              duration := some (t1 - e.timestamp) }
  (e1, [.broadcast "update" (entrySummary e1), .resEnd none])

/-- The proxyRes error handler of `handleBuffered` (lines 445-452):
finalize as error, broadcast, notify persistence, end the client stream. -/
def bufferedErrorHandler (msg : String) (t1 : Nat) (e : Entry) : Entry × List Effect :=
  let e1 := { e with
              state := "error"
              error := some msg
              duration := some (t1 - e.timestamp) }
  (e1, [.broadcast "update" (entrySummary e1), .record e1, .resEnd none])

/-- The proxyReq error handler of `handleProxy` (lines 346-356): finalize
as error and broadcast; write a 502 head only when response headers were
not yet sent; then `res.end(...)` with the serialized error body in either
case. No persistence call. -/
def proxyReqErrorHandler (msg : String) (t1 : Nat) (headersSent : Bool) (e : Entry) :
    Entry × List Effect :=
  let e1 := { e with
              state := "error"
              error := some msg
              duration := some (t1 - e.timestamp) }
  (e1, [.broadcast "update" (entrySummary e1)] ++
    (if !headersSent then [.resWriteHead 502 [("content-type", "application/json")]] else []) ++
    [.resEnd (some (errBody ("Proxy error: " ++ msg)))])

/-- Embedding of `handleProxy` (src/proxy.mjs lines 259-360) together with
the handlers it attaches, driven by an upstream scenario. `jp` is the
JSON.parse oracle, `uuid` the id from randomUUID, `t0` the arrival
`Date.now()` and `t1` the `Date.now()` at the terminal transition. Returns
the updated store, the ordered effect trace, and the final state of the
entry object (`none` when no entry was created). -/
def handleProxy (jp : String → Option JVal) (table : List (String × Price))
    (targetMap : List (String × String)) (store : Store) (req : ReqInfo)
    (uuid : String) (t0 t1 : Nat) (sc : UpstreamScenario) :
    Store × List Effect × Option Entry :=
  let (provider, rest) := providerRest req.url
  match (targetMap.find? (fun p => p.1 == provider)).map Prod.snd with
  | none =>
      (store, [.resWriteHead 502 [("content-type", "application/json")],
               .resEnd (some (errBody ("Unknown provider: " ++ provider)))], none)
  | some targetBase =>
      let entry := initEntry uuid provider req.method rest t0 req.headers req.bodyRaw req.bodyJson
      let store1 := storeEntry store entry
      let targetUrl := buildUpstreamUrl targetBase rest
      let fwdHeaders := forwardHeaders req.headers ++ [("host", urlHost targetUrl)] ++
        (if req.bodyRaw.data.length > 0 then
          [("content-length", toString req.bodyRaw.data.length)] else [])
      let pre : List Effect := [.broadcast "new" (entrySummary entry),
        .upstreamConnect targetUrl req.method fwdHeaders req.bodyRaw]
      match sc with
      | .connError msg =>
          let r := proxyReqErrorHandler msg t1 false entry
          (updateEntry store1 r.1, pre ++ r.2, some r.1)
      | .respThenConnError status hdrs chunks msg =>
          let e1 := { entry with status := some status, resHeaders := some hdrs }
          let r := proxyReqErrorHandler msg t1 true e1
          (updateEntry store1 r.1,
           pre ++ [.resWriteHead status hdrs] ++ chunks.map Effect.resWrite ++ r.2, some r.1)
      | .resp status hdrs chunks streamErr =>
          let e1 := { entry with status := some status, resHeaders := some hdrs }
          let relay := [Effect.resWriteHead status hdrs] ++ chunks.map Effect.resWrite
          if isSSEHeaders hdrs then
            match streamErr with
            | none =>
                let r := sseEndHandler jp table provider chunks t1 e1
                (updateEntry store1 r.1, pre ++ relay ++ r.2, some r.1)
            | some msg =>
                let r := sseErrorHandler msg t1 e1
                (updateEntry store1 r.1, pre ++ relay ++ r.2, some r.1)
          else
            match streamErr with
            | none =>
                let r := bufferedEndHandler jp table chunks t1 e1
                (updateEntry store1 r.1, pre ++ relay ++ r.2, some r.1)
            | some msg =>
                let r := bufferedErrorHandler msg t1 e1
                (updateEntry store1 r.1, pre ++ relay ++ r.2, some r.1)

-- ## Server router (server.mjs startServer request handler)

/-- The route taken by the combined HTTP server for one request. -/
inductive Route where
  | dashboard
  | apiStatus
  | apiEnable
  | apiDisable
  | apiStats
  | apiHistory
  | apiPricing
  | apiConfig
  | apiClear
  | apiProviders
  | proxied
  | notFound

/-- Embedding of the request dispatch chain of `startServer` (server.mjs
lines 74-181): fixed dashboard/API routes first, then the proxy when the
first path segment is a key of the target map captured at startup, else a
404 response. -/
def routeRequest (url method : String) (targets : List (String × String)) : Route :=
  if url = "/" ∨ url = "/index.html" then .dashboard
  else if url = "/api/status" ∧ method = "GET" then .apiStatus
  else if url = "/api/enable" ∧ method = "POST" then .apiEnable
  else if url = "/api/disable" ∧ method = "POST" then .apiDisable
  else if url = "/api/stats" ∧ method = "GET" then .apiStats
  else if strStartsWith url "/api/history" ∧ method = "GET" then .apiHistory
  else if url = "/api/pricing" ∧ method = "GET" then .apiPricing
  else if url = "/api/config" ∧ method = "GET" then .apiConfig
  else if url = "/api/clear" ∧ method = "POST" then .apiClear
  else if url = "/api/providers" ∧ method = "GET" then .apiProviders
  else if (targets.find? (fun p => p.1 == (providerRest url).1)).isSome then .proxied
  else .notFound

/-- The 404 response written by the router's fallthrough (server.mjs lines
179-180). -/
def notFoundResponse : List Effect :=
  [.resWriteHead 404 [("content-type", "application/json")],
   .resEnd (some (errBody "Not found"))]

-- ## Specification-side descriptions

/-- The pricing entry as the specification describes the lookup: exact
match first, else the first table entry, in iteration order, whose key is
a prefix of the model id or of which the model id is a prefix. -/
def claimedLookup (table : List (String × Price)) (m : String) : Option Price :=
  match (table.find? (fun p => p.1 == m)).map Prod.snd with
  | some p => some p
  | none => (table.find? (fun p => strStartsWith m p.1 || strStartsWith p.1 m)).map Prod.snd

/-- The cost value the specification's formula prescribes. -/
def claimedCost (table : List (String × Price)) (m : String) (i o cr cw : ℚ) : ℚ :=
  match claimedLookup table m with
  | some p => (max 0 (i - cr) * p.input + o * p.output + cr * p.cacheRead +
      cw * p.cacheWrite) / 1000000
  | none => 0

/-- Values on which the JS `in` operator does not throw: objects and
arrays. -/
def jsInSafe : JVal → Bool
  | .obj _ => true
  | .arr _ => true
  | _ => false

/-- An event "carries a usage object" for a family-B stream: its usage
field is a truthy value of JS object type. -/
def usageObjEvt (e : JVal) : Bool :=
  (e.getQ "usage").truthy && (e.getQ "usage").typeofObject

/-- The model id the first declaring event supplies: the first event whose
model field is truthy and not the sentinel itself (an event declaring the
sentinel leaves the accumulator unchanged); the sentinel when none does. -/
def firstDeclaredModel : List JVal → JVal
  | [] => .str "?"
  | e :: es =>
      if (e.getQ "model").truthy && !(e.getQ "model").eqStr "?" then e.getQ "model"
      else firstDeclaredModel es

/-- Split of an event list at its last usage-carrying event: the events
strictly before it and that event; `none` when no event carries usage. -/
def splitLastUsage : List JVal → Option (List JVal × JVal)
  | [] => none
  | e :: es =>
    match splitLastUsage es with
    | some (pre, u) => some (e :: pre, u)
    | none => if usageObjEvt e then some ([], e) else none

/-- The record `openAIStep` constructs from a usage-carrying event, with
`mvar` the model variable before the iteration. -/
def buildB (evt mvar : JVal) : UsageResult :=
  let u := evt.getQ "usage"
  { model := jsOr (evt.getQ "model") mvar
    inputTokens := jsOr (u.getQ "prompt_tokens") (jsOr (u.getQ "input_tokens") (.num 0))
    outputTokens := jsOr (u.getQ "completion_tokens") (jsOr (u.getQ "output_tokens") (.num 0))
    totalTokens := jsOr (u.getQ "total_tokens") (.num 0)
    cachedTokens := jsOr ((u.getQ "prompt_tokens_details").getQ "cached_tokens")
      (jsOr ((u.getQ "input_tokens_details").getQ "cached_tokens") (.num 0))
    cacheCreatedTokens := .num 0 }

/-- One update of the model variable of the family-B event loop. -/
def modelStepVar (m e : JVal) : JVal :=
  if (e.getQ "model").truthy && m.eqStr "?" then e.getQ "model" else m

/-- The model variable after a run of the family-B event loop. -/
def modelVarAfter (events : List JVal) (m : JVal) : JVal :=
  events.foldl modelStepVar m

/-- The usage record the amended claim prescribes from the last
usage-carrying event of a family-B stream: every token field comes from
that event's usage object; the model is that event's, else the fallback;
the total is the explicit total field when truthy, else input+output. -/
def specOpenAIFromEvt (evt fallbackModel : JVal) : UsageResult :=
  let u := evt.getQ "usage"
  let inp := jsOr (u.getQ "prompt_tokens") (jsOr (u.getQ "input_tokens") (.num 0))
  let out := jsOr (u.getQ "completion_tokens") (jsOr (u.getQ "output_tokens") (.num 0))
  let tot := jsOr (u.getQ "total_tokens") (.num 0)
  { model := if (evt.getQ "model").truthy then evt.getQ "model" else fallbackModel
    inputTokens := inp
    outputTokens := out
    totalTokens := if tot.truthy then tot else jsAdd inp out
    cachedTokens := jsOr ((u.getQ "prompt_tokens_details").getQ "cached_tokens")
      (jsOr ((u.getQ "input_tokens_details").getQ "cached_tokens") (.num 0))
    cacheCreatedTokens := .num 0 }

/-- Amended-claim description of the family-B stream accumulator: the last
usage-carrying event determines the record in full (with the first
non-sentinel model declared before it as model fallback); without a
usage-carrying event, all counts are zero and the model is the first one
declared anywhere in the stream. -/
def specOpenAIStream (events : List JVal) : UsageResult :=
  match splitLastUsage events with
  | none => zeroUsage (firstDeclaredModel events)
  | some (pre, evt) => specOpenAIFromEvt evt (firstDeclaredModel pre)

/-- A synthetic entry with a length-coded id, used for concrete
instantiations of the store theorems. -/
def testEntry (n : Nat) : Entry :=
  { id := String.mk (List.replicate n 'a')
    provider := "p"
    method := "POST"
    path := "/"
    status := none
    state := "pending"
    timestamp := 0
    duration := none
    reqHeaders := []
    reqBody := .null
    reqSize := 0
    reqModel := .str "?"
    resHeaders := none
    resBody := .null
    resSize := 0
    usage := none
    error := none
    sseEvents := none
    cost := none }

/-- Capacity+1 synthetic entries with pairwise distinct ids. -/
def testEntries : List Entry := (List.range (MAX_ENTRIES + 1)).map testEntry

/-- Number of WebSocket broadcast effects in a trace. -/
def countBroadcast (effs : List Effect) : Nat :=
  effs.countP (fun ef => match ef with | .broadcast _ _ => true | _ => false)

/-- Number of persistence notifications (recordRequest calls) in a trace. -/
def countRecord (effs : List Effect) : Nat :=
  effs.countP (fun ef => match ef with | .record _ => true | _ => false)

/-- Number of upstream connection attempts in a trace. -/
def countConnect (effs : List Effect) : Nat :=
  effs.countP (fun ef => match ef with | .upstreamConnect _ _ _ _ => true | _ => false)

/-- The two effects every known-provider run starts with: the "new"
broadcast of the pending entry, then the outbound connection. -/
def preEffects (req : ReqInfo) (uuid : String) (t0 : Nat) (targetBase : String) :
    List Effect :=
  let (provider, rest) := providerRest req.url
  let entry := initEntry uuid provider req.method rest t0 req.headers req.bodyRaw req.bodyJson
  let targetUrl := buildUpstreamUrl targetBase rest
  [.broadcast "new" (entrySummary entry),
   .upstreamConnect targetUrl req.method
     (forwardHeaders req.headers ++ [("host", urlHost targetUrl)] ++
       (if req.bodyRaw.data.length > 0 then
         [("content-length", toString req.bodyRaw.data.length)] else []))
     req.bodyRaw]

/-- The entry `handleProxy` creates for a request, before any response
activity. -/
def pendingEntry (req : ReqInfo) (uuid : String) (t0 : Nat) : Entry :=
  initEntry uuid (providerRest req.url).1 req.method (providerRest req.url).2 t0
    req.headers req.bodyRaw req.bodyJson

/-- Whether the request matches one of the fixed dashboard/API routes of
the `startServer` dispatch chain (server.mjs lines 74-169), i.e. one of
the branches tried before the proxy branch. -/
def isFixedRoute (url method : String) : Bool :=
  (url == "/") || (url == "/index.html") ||
  ((url == "/api/status") && (method == "GET")) ||
  ((url == "/api/enable") && (method == "POST")) ||
  ((url == "/api/disable") && (method == "POST")) ||
  ((url == "/api/stats") && (method == "GET")) ||
  (strStartsWith url "/api/history" && (method == "GET")) ||
  ((url == "/api/pricing") && (method == "GET")) ||
  ((url == "/api/config") && (method == "GET")) ||
  ((url == "/api/clear") && (method == "POST")) ||
  ((url == "/api/providers") && (method == "GET"))

-- # Theorems

-- ## C4: calculateCost

theorem tokVal_num (q : ℚ) : tokVal (.num q) = some q := by
  by_cases h : q = 0 <;> simp [tokVal, jsOr, JVal.truthy, JVal.toNumArith, h]

theorem prefixLookup_str (table : List (String × Price)) (m : String) :
    prefixLookup table (.str m) =
      .ok ((table.find? (fun p => strStartsWith m p.1 || strStartsWith p.1 m)).map Prod.snd) := by
  induction table with
  | nil => rfl
  | cons hd tl ih =>
      by_cases h : (strStartsWith m hd.1 || strStartsWith hd.1 m) = true
      · simp [prefixLookup, List.find?_cons, h]
      · simp [prefixLookup, List.find?_cons, h] at ih ⊢
        exact ih

theorem costFormula_num (p : Price) (mv tt : JVal) (i o cr cw : ℚ) :
    costFormula p ⟨mv, .num i, .num o, tt, .num cr, .num cw⟩ =
      some ((max 0 (i - cr) * p.input + o * p.output + cr * p.cacheRead +
        cw * p.cacheWrite) / 1000000) := by
  simp [costFormula, tokVal_num]

theorem claimedLookup_mem {table : List (String × Price)} {m : String} {p : Price}
    (h : claimedLookup table m = some p) : ∃ k, (k, p) ∈ table := by
  unfold claimedLookup at h
  cases hf : table.find? (fun q => q.1 == m) with
  | some kv =>
      obtain ⟨k, v⟩ := kv
      rw [hf] at h
      simp at h
      exact ⟨k, by rw [← h]; exact List.mem_of_find?_eq_some hf⟩
  | none =>
      rw [hf] at h
      simp at h
      cases hf2 : table.find? (fun q => strStartsWith m q.1 || strStartsWith q.1 m) with
      | none => rw [hf2] at h; simp at h
      | some kv =>
          obtain ⟨k, v⟩ := kv
          rw [hf2] at h
          simp at h
          exact ⟨k, by rw [← h]; exact List.mem_of_find?_eq_some hf2⟩

theorem calculateCost_str_ok (table : List (String × Price)) (m : String) (u : UsageResult) :
    calculateCost table (.str m) (some u) =
      .ok (match claimedLookup table m with
        | some p => costFormula p u
        | none => some 0) := by
  cases hf : table.find? (fun q => q.1 == m) with
  | some kv => simp [calculateCost, exactLookup, claimedLookup, hf]
  | none =>
      cases hf2 : table.find? (fun q => strStartsWith m q.1 || strStartsWith q.1 m) with
      | some kv =>
          simp only [calculateCost, exactLookup, claimedLookup, hf, hf2, prefixLookup_str,
            Option.map_some, Option.map_none]
          rfl
      | none =>
          simp only [calculateCost, exactLookup, claimedLookup, hf, hf2, prefixLookup_str,
            Option.map_some, Option.map_none]
          rfl

theorem calculateCost_str_isOk (table : List (String × Price)) (m : String)
    (u : Option UsageResult) : (calculateCost table (.str m) u).isOk = true := by
  cases u with
  | none => rfl
  | some uu =>
      rw [calculateCost_str_ok]
      cases claimedLookup table m <;> rfl

/-- C4. `calculateCost` computes
(max(0, in − cached)·inRate + out·outRate + cached·cacheReadRate +
cacheCreated·cacheWriteRate) / 1,000,000 with the pricing entry found by
exact match first, else the first prefix-related entry in iteration order;
without a match or a usage record the result is 0; with non-negative token
counts and table rates the result is never negative; and for a string
model id the function never throws, whatever the usage record holds. -/
theorem C4_calculateCost_spec (table : List (String × Price)) (m : String)
    (mv tt : JVal) (i o cr cw : ℚ)
    (hi : 0 ≤ i) (ho : 0 ≤ o) (hcr : 0 ≤ cr) (hcw : 0 ≤ cw)
    (hrates : ∀ p ∈ table, 0 ≤ p.2.input ∧ 0 ≤ p.2.output ∧
      0 ≤ p.2.cacheRead ∧ 0 ≤ p.2.cacheWrite) :
    calculateCost table (.str m) (some ⟨mv, .num i, .num o, tt, .num cr, .num cw⟩) =
      .ok (some (claimedCost table m i o cr cw)) ∧
    0 ≤ claimedCost table m i o cr cw ∧
    calculateCost table (.str m) none = .ok (some 0) ∧
    ∀ u : Option UsageResult, (calculateCost table (.str m) u).isOk = true := by
  refine ⟨?_, ?_, rfl, fun u => calculateCost_str_isOk table m u⟩
  · rw [calculateCost_str_ok]
    unfold claimedCost
    cases claimedLookup table m with
    | some p => simp [costFormula_num]
    | none => rfl
  · unfold claimedCost
    cases hcl : claimedLookup table m with
    | none => simp
    | some p =>
        obtain ⟨k, hk⟩ := claimedLookup_mem hcl
        obtain ⟨h1, h2, h3, h4⟩ := hrates (k, p) hk
        have hmax : (0:ℚ) ≤ max 0 (i - cr) := le_max_left _ _
        simp only
        apply div_nonneg _ (by norm_num : (0:ℚ) ≤ 1000000)
        have t1 : 0 ≤ max 0 (i - cr) * p.input := mul_nonneg hmax h1
        have t2 : 0 ≤ o * p.output := mul_nonneg ho h2
        have t3 : 0 ≤ cr * p.cacheRead := mul_nonneg hcr h3
        have t4 : 0 ≤ cw * p.cacheWrite := mul_nonneg hcw h4
        linarith

-- ## C5: accumulateOpenAIStreamUsage

theorem except_bind_ok {ε α β : Type _} (a : α) (f : α → Except ε β) :
    (Except.ok a >>= f) = f a := rfl

theorem getE_eq_ok {v : JVal} (h : v.neNullish = true) (k : String) :
    v.getE k = .ok (v.getQ k) := by
  cases v <;> first
    | rfl
    | simp [JVal.neNullish] at h

theorem jsOr_modelStep (m e : JVal) :
    jsOr (e.getQ "model") (modelStepVar m e) = jsOr (e.getQ "model") m := by
  unfold modelStepVar jsOr
  by_cases h : (e.getQ "model").truthy <;> simp [h]

theorem jsOr_truthy {a : JVal} (h : a.truthy = true) (b : JVal) : jsOr a b = a := by
  unfold jsOr; simp [h]

theorem jsOr_falsy {a : JVal} (h : a.truthy = false) (b : JVal) : jsOr a b = b := by
  unfold jsOr; simp [h]

theorem truthy_num_zero : (JVal.num 0).truthy = false := by simp [JVal.truthy]

theorem firstDeclaredModel_cons (e : JVal) (es : List JVal) :
    firstDeclaredModel (e :: es) =
      if (e.getQ "model").truthy && !(e.getQ "model").eqStr "?" then e.getQ "model"
      else firstDeclaredModel es := rfl

theorem openAIStep_ok (m : JVal) (r0 : Option UsageResult) (e : JVal)
    (he : e.neNullish = true) :
    openAIStep ⟨m, r0⟩ e =
      .ok ⟨modelStepVar m e, if usageObjEvt e then some (buildB e m) else r0⟩ := by
  unfold openAIStep
  rw [getE_eq_ok he "model", getE_eq_ok he "usage", except_bind_ok, except_bind_ok]
  by_cases h : usageObjEvt e
  · have h2 : ((e.getQ "usage").truthy && (e.getQ "usage").typeofObject) = true := h
    simp only [h2, if_pos, h, if_true, usageObjEvt]
    unfold buildB modelStepVar
    rw [← jsOr_modelStep m e]
    simp [modelStepVar, pure, Except.pure]
  · have h2 : ((e.getQ "usage").truthy && (e.getQ "usage").typeofObject) = false := by
      simpa [usageObjEvt] using h
    simp only [h2, Bool.false_eq_true, if_false, h, usageObjEvt]
    rfl

theorem modelVarAfter_fixed (es : List JVal) (m : JVal) (hm : m.eqStr "?" = false) :
    modelVarAfter es m = m := by
  induction es with
  | nil => rfl
  | cons e es ih =>
      unfold modelVarAfter List.foldl
      rw [show modelStepVar m e = m by unfold modelStepVar; simp [hm]]
      exact ih

theorem eqStr_eq {v : JVal} {t : String} (h : v.eqStr t = true) : v = .str t := by
  cases v <;> simp [JVal.eqStr] at h
  subst h
  rfl

theorem modelVarAfter_sentinel (es : List JVal) :
    modelVarAfter es (.str "?") = firstDeclaredModel es := by
  induction es with
  | nil => rfl
  | cons e es ih =>
      have hstep : modelVarAfter (e :: es) (.str "?") =
          modelVarAfter es (modelStepVar (.str "?") e) := rfl
      rw [hstep, firstDeclaredModel_cons]
      by_cases hmt : (e.getQ "model").truthy
      · by_cases hms : (e.getQ "model").eqStr "?"
        · have hm : modelStepVar (.str "?") e = .str "?" := by
            unfold modelStepVar
            rw [eqStr_eq hms]
            simp
          rw [hm, ih]
          simp [hms]
        · have hmsf : (e.getQ "model").eqStr "?" = false := Bool.eq_false_iff.mpr hms
          have hm : modelStepVar (.str "?") e = e.getQ "model" := by
            unfold modelStepVar; simp [hmt, JVal.eqStr]
          rw [hm, modelVarAfter_fixed es _ hmsf]
          simp [hmt, hmsf]
      · have hmtf : (e.getQ "model").truthy = false := Bool.eq_false_iff.mpr hmt
        have hm : modelStepVar (.str "?") e = .str "?" := by
          unfold modelStepVar; simp [hmtf]
        rw [hm, ih]
        simp [hmtf]

theorem openAIFold (events : List JVal) :
    (∀ e ∈ events, e.neNullish = true) → ∀ (m : JVal) (r0 : Option UsageResult),
    events.foldlM openAIStep ⟨m, r0⟩ =
      .ok ⟨modelVarAfter events m,
        match splitLastUsage events with
        | none => r0
        | some (pre, evt) => some (buildB evt (modelVarAfter pre m))⟩ := by
  induction events with
  | nil => intro _ m r0; rfl
  | cons e es ih =>
      intro hev m r0
      have he : e.neNullish = true := hev e (List.mem_cons_self e es)
      have hes : ∀ x ∈ es, x.neNullish = true :=
        fun x hx => hev x (List.mem_cons_of_mem e hx)
      rw [List.foldlM_cons, openAIStep_ok m r0 e he, except_bind_ok,
        ih hes (modelStepVar m e) _]
      have hmv : modelVarAfter (e :: es) m = modelVarAfter es (modelStepVar m e) := rfl
      rw [hmv]
      cases hs : splitLastUsage es with
      | some pu =>
          obtain ⟨pre, u⟩ := pu
          have : splitLastUsage (e :: es) = some (e :: pre, u) := by
            unfold splitLastUsage; rw [hs]
          rw [this]
          rfl
      | none =>
          by_cases hu : usageObjEvt e
          · have : splitLastUsage (e :: es) = some ([], e) := by
              unfold splitLastUsage; rw [hs]; simp [hu]
            rw [this]
            simp [hu, modelVarAfter]
          · have : splitLastUsage (e :: es) = none := by
              unfold splitLastUsage; rw [hs]; simp [hu]
            rw [this]
            simp [hu]

theorem except_pure {ε α : Type _} (a : α) : (pure a : Except ε α) = .ok a := rfl

theorem specFromEvt_fix (evt fb : JVal) :
    specOpenAIFromEvt evt fb =
      (if !(buildB evt fb).totalTokens.truthy then
        { buildB evt fb with
          totalTokens := jsAdd (buildB evt fb).inputTokens (buildB evt fb).outputTokens }
       else buildB evt fb) := by
  by_cases htt : ((evt.getQ "usage").getQ "total_tokens").truthy
  · have h1 : jsOr ((evt.getQ "usage").getQ "total_tokens") (.num 0) =
        (evt.getQ "usage").getQ "total_tokens" := jsOr_truthy htt _
    simp only [specOpenAIFromEvt, buildB]
    rw [h1]
    simp [htt, jsOr]
  · have h1 : jsOr ((evt.getQ "usage").getQ "total_tokens") (.num 0) = .num 0 :=
      jsOr_falsy (Bool.eq_false_iff.mpr htt) _
    simp only [specOpenAIFromEvt, buildB]
    rw [h1]
    simp [truthy_num_zero, jsOr]

/-- C5 (amended). For a family-B (OpenAI-style) event stream with
non-null events, the accumulator yields exactly the record described by
`specOpenAIStream`: the last usage-carrying event determines all token
fields in full (total from its explicit total field when truthy, else
input+output), the model id is that event's own when it declares one and
otherwise the first non-sentinel model declared before it, and without any
usage-carrying event all counts are zero with the first-declared model. -/
theorem C5_openai_stream_amended (events : List JVal)
    (hev : ∀ e ∈ events, e.neNullish = true) :
    accumulateOpenAIStreamUsage events = .ok (specOpenAIStream events) := by
  unfold accumulateOpenAIStreamUsage
  rw [openAIFold events hev (.str "?") none, except_bind_ok]
  unfold specOpenAIStream
  cases hs : splitLastUsage events with
  | none =>
      simp only
      rw [modelVarAfter_sentinel]
      rfl
  | some pu =>
      obtain ⟨pre, evt⟩ := pu
      simp only
      rw [modelVarAfter_sentinel, specFromEvt_fix]
      by_cases hb : (buildB evt (firstDeclaredModel pre)).totalTokens.truthy <;>
        simp [hb, except_pure]

/-- Witness for C4 at the specification's cost example: a model priced
(3, 15, 0.3, 3.75) USD per 1M tokens, matched by prefix, with usage 10000
input, 500 output and 5000 cached tokens. -/
theorem C4_calculateCost_spec_witness :
    calculateCost [("claude-sonnet-4-5", ⟨3, 15, 3/10, 15/4⟩)]
        (.str "claude-sonnet-4-5-20250929")
        (some ⟨.str "claude-sonnet-4-5-20250929", .num 10000, .num 500, .num 10500,
          .num 5000, .num 0⟩) =
      .ok (some (claimedCost [("claude-sonnet-4-5", ⟨3, 15, 3/10, 15/4⟩)]
        "claude-sonnet-4-5-20250929" 10000 500 5000 0)) ∧
    0 ≤ claimedCost [("claude-sonnet-4-5", ⟨3, 15, 3/10, 15/4⟩)]
      "claude-sonnet-4-5-20250929" 10000 500 5000 0 ∧
    calculateCost [("claude-sonnet-4-5", ⟨3, 15, 3/10, 15/4⟩)]
      (.str "claude-sonnet-4-5-20250929") none = .ok (some 0) ∧
    ∀ u : Option UsageResult,
      (calculateCost [("claude-sonnet-4-5", ⟨3, 15, 3/10, 15/4⟩)]
        (.str "claude-sonnet-4-5-20250929") u).isOk = true :=
  C4_calculateCost_spec _ _ (.str "claude-sonnet-4-5-20250929") (.num 10500) 10000 500 5000 0
    (by norm_num) (by norm_num) (by norm_num) (by norm_num) (by norm_num)

/-- Counterexample to C5 as stated. In the stream
[(model a), (model b, usage ...)] the first event declaring a model id
declares a, yet the result's model id is b, taken from the usage-carrying
event; in [(usage ...), (model c)] a model id is declared (by the second
event), yet the result keeps the sentinel; and when an explicit total
field equal to 0 is present, the total is recomputed as input+output
rather than taken from the declared total field. -/
theorem C5_counterexample :
    (match accumulateOpenAIStreamUsage
        [.obj [("model", .str "a")],
         .obj [("model", .str "b"), ("usage", .obj [("prompt_tokens", .num 1)])]] with
      | .ok r => r.model.eqStr "b"
      | .error _ => false) = true ∧
    (match accumulateOpenAIStreamUsage
        [.obj [("usage", .obj [("prompt_tokens", .num 1)])],
         .obj [("model", .str "c")]] with
      | .ok r => r.model.eqStr "?"
      | .error _ => false) = true ∧
    accumulateOpenAIStreamUsage
        [.obj [("usage", .obj [("prompt_tokens", .num 1), ("completion_tokens", .num 2),
          ("total_tokens", .num 0)])]] =
      .ok ⟨.str "?", .num 1, .num 2, jsAdd (.num 1) (.num 2), .num 0, .num 0⟩ ∧
    jsAdd (.num 1) (.num 2) ≠ .num 0 := by
  refine ⟨by decide, by decide, rfl, ?_⟩
  norm_num [jsAdd]

/-- Witness for the amended C5 at a concrete two-event stream. -/
theorem C5_openai_stream_amended_witness :
    accumulateOpenAIStreamUsage
        [.obj [("model", .str "m")],
         .obj [("usage", .obj [("prompt_tokens", .num 7), ("completion_tokens", .num 3)])]] =
      .ok (specOpenAIStream
        [.obj [("model", .str "m")],
         .obj [("usage", .obj [("prompt_tokens", .num 7), ("completion_tokens", .num 3)])]]) :=
  C5_openai_stream_amended _ (by decide)

-- ## C6: parseGenericUsage / accumulateStreamUsage never throwing

theorem except_toBool_ok {ε α : Type _} (a : α) : (Except.ok a : Except ε α).toBool = true := rfl

theorem truthy_neNullish {a : JVal} (h : a.truthy = true) : a.neNullish = true := by
  cases a <;> simp [JVal.truthy, JVal.neNullish] at h ⊢

theorem jsOr_neNullish {a b : JVal} (hb : b.neNullish = true) :
    (jsOr a b).neNullish = true := by
  unfold jsOr
  by_cases h : a.truthy
  · simp [h, truthy_neNullish h]
  · simp [h, hb]

theorem jsIn_ok_of_safe {v : JVal} (h : jsInSafe v = true) (k : String) :
    jsIn k v = .ok (match v with | .obj fs => (lookupField fs k).isSome | _ => false) := by
  cases v with
  | obj fs => rfl
  | arr xs => rfl
  | undef => simp [jsInSafe] at h
  | null => simp [jsInSafe] at h
  | nan => simp [jsInSafe] at h
  | bool b => simp [jsInSafe] at h
  | num q => simp [jsInSafe] at h
  | str t => simp [jsInSafe] at h

theorem jsInSafe_jsOr (a : JVal) (hu : a.truthy = true → a.typeofObject = true) :
    jsInSafe (jsOr a (.obj [])) = true := by
  by_cases h : a.truthy
  · have ht := hu h
    rw [jsOr_truthy h]
    cases a with
    | obj fs => rfl
    | arr xs => rfl
    | null => simp [JVal.truthy] at h
    | undef => simp [JVal.truthy] at h
    | nan => simp [JVal.truthy] at h
    | bool b => simp [JVal.typeofObject] at ht
    | num q => simp [JVal.typeofObject] at ht
    | str t => simp [JVal.typeofObject] at ht
  · rw [jsOr_falsy (Bool.eq_false_iff.mpr h)]
    rfl

theorem parseAnthropicUsage_ok (body : JVal) (hb : body.neNullish = true) :
    (parseAnthropicUsage body).isOk = true := by
  have hu : (jsOr (body.getQ "usage") (.obj [])).neNullish = true := jsOr_neNullish rfl
  simp [parseAnthropicUsage, getE_eq_ok hb, getE_eq_ok hu, except_bind_ok, Except.isOk, except_toBool_ok]

theorem parseOpenAIUsage_ok (body : JVal) (hb : body.neNullish = true) :
    (parseOpenAIUsage body).isOk = true := by
  have hu : (jsOr (body.getQ "usage") (.obj [])).neNullish = true := jsOr_neNullish rfl
  simp [parseOpenAIUsage, getE_eq_ok hb, getE_eq_ok hu, except_bind_ok, Except.isOk, except_toBool_ok]

theorem parseGenericUsage_ok (body : JVal) (hb : body.neNullish = true)
    (hu : (body.getQ "usage").truthy = true → (body.getQ "usage").typeofObject = true) :
    (parseGenericUsage body).isOk = true := by
  have hsafe := jsInSafe_jsOr (body.getQ "usage") hu
  have hnn : (jsOr (body.getQ "usage") (.obj [])).neNullish = true := jsOr_neNullish rfl
  unfold parseGenericUsage
  simp only [getE_eq_ok hb, except_bind_ok, jsIn_ok_of_safe hsafe]
  split
  · exact parseAnthropicUsage_ok body hb
  · split
    · exact parseOpenAIUsage_ok body hb
    · simp [getE_eq_ok hnn, getE_eq_ok hb, except_bind_ok, Except.isOk, except_toBool_ok]

theorem anthStep_ok (acc : AnthAcc) (e : JVal) (he : e.neNullish = true) :
    ∃ a, anthStep acc e = .ok a := by
  unfold anthStep
  simp only [getE_eq_ok he, except_bind_ok]
  by_cases h1 : (e.getQ "type").eqStr "message_start"
  · simp only [h1, if_true]
    by_cases h2 : (e.getQ "message").truthy
    · have hmsg : (e.getQ "message").neNullish = true := truthy_neNullish h2
      have hu2 : (jsOr ((e.getQ "message").getQ "usage") (.obj [])).neNullish = true :=
        jsOr_neNullish rfl
      have hu3 : (jsOr (e.getQ "usage") (.obj [])).neNullish = true := jsOr_neNullish rfl
      simp only [h2, if_true, getE_eq_ok hmsg, getE_eq_ok hu2, getE_eq_ok hu3,
        except_bind_ok]
      by_cases h3 : (e.getQ "type").eqStr "message_delta" <;> simp [h3] <;> exact ⟨_, rfl⟩
    · have hu3 : (jsOr (e.getQ "usage") (.obj [])).neNullish = true := jsOr_neNullish rfl
      simp only [h2, Bool.false_eq_true, if_false, getE_eq_ok hu3, except_bind_ok]
      by_cases h3 : (e.getQ "type").eqStr "message_delta" <;> simp [h3] <;> exact ⟨_, rfl⟩
  · have hu3 : (jsOr (e.getQ "usage") (.obj [])).neNullish = true := jsOr_neNullish rfl
    simp only [h1, Bool.false_eq_true, if_false, getE_eq_ok hu3, except_bind_ok]
    by_cases h3 : (e.getQ "type").eqStr "message_delta" <;> simp [h3] <;> exact ⟨_, rfl⟩

theorem anthFold_ok (events : List JVal) :
    (∀ e ∈ events, e.neNullish = true) → ∀ acc : AnthAcc,
    ∃ a, events.foldlM anthStep acc = .ok a := by
  induction events with
  | nil => intro _ acc; exact ⟨acc, rfl⟩
  | cons e es ih =>
      intro hev acc
      have he := hev e (List.mem_cons_self e es)
      have hes : ∀ x ∈ es, x.neNullish = true :=
        fun x hx => hev x (List.mem_cons_of_mem e hx)
      obtain ⟨a1, ha1⟩ := anthStep_ok acc e he
      obtain ⟨a2, ha2⟩ := ih hes a1
      exact ⟨a2, by rw [List.foldlM_cons, ha1, except_bind_ok, ha2]⟩

theorem accumulateAnthropicStreamUsage_ok (events : List JVal)
    (hev : ∀ e ∈ events, e.neNullish = true) :
    (accumulateAnthropicStreamUsage events).isOk = true := by
  obtain ⟨a, ha⟩ := anthFold_ok events hev
    ⟨.str "?", .num 0, .num 0, .num 0, .num 0⟩
  unfold accumulateAnthropicStreamUsage
  rw [ha, except_bind_ok]
  rfl

theorem accumulateOpenAIStreamUsage_ok (events : List JVal)
    (hev : ∀ e ∈ events, e.neNullish = true) :
    (accumulateOpenAIStreamUsage events).isOk = true := by
  unfold accumulateOpenAIStreamUsage
  rw [openAIFold events hev (.str "?") none, except_bind_ok]
  cases hs : splitLastUsage events with
  | none => rfl
  | some pu =>
      obtain ⟨pre, evt⟩ := pu
      simp only
      split <;> rfl

theorem someAnthropicType_ok (events : List JVal) :
    (∀ e ∈ events, e.neNullish = true) →
    ∃ b, someAnthropicType events = .ok b := by
  induction events with
  | nil => intro _; exact ⟨false, rfl⟩
  | cons e es ih =>
      intro hev
      have he := hev e (List.mem_cons_self e es)
      have hes : ∀ x ∈ es, x.neNullish = true :=
        fun x hx => hev x (List.mem_cons_of_mem e hx)
      unfold someAnthropicType
      simp only [getE_eq_ok he, except_bind_ok]
      by_cases hc : ((e.getQ "type").eqStr "message_start" ||
          (e.getQ "type").eqStr "message_delta")
      · exact ⟨true, by simp [hc, except_pure]⟩
      · obtain ⟨b, hbb⟩ := ih hes
        exact ⟨b, by simp [hc, hbb, except_pure]⟩

theorem accumulateStreamUsage_ok (events : List JVal) (hint : JVal)
    (hev : ∀ e ∈ events, e.neNullish = true) :
    (accumulateStreamUsage events hint).isOk = true := by
  unfold accumulateStreamUsage
  by_cases hemp : events.isEmpty
  · simp [hemp, except_pure, Except.isOk, except_toBool_ok]
  · simp only [hemp, Bool.false_eq_true, if_false]
    by_cases hh : hint.eqStr "anthropic"
    · simp only [hh, if_true, except_bind_ok]
      exact accumulateAnthropicStreamUsage_ok events hev
    · obtain ⟨b, hsb⟩ := someAnthropicType_ok events hev
      simp only [hh, Bool.false_eq_true, if_false, hsb, except_bind_ok]
      cases b
      · simp only [Bool.false_eq_true, if_false]
        exact accumulateOpenAIStreamUsage_ok events hev
      · simp only [if_true]
        exact accumulateAnthropicStreamUsage_ok events hev

/-- Counterexample to C6 as stated: a response body whose usage field is
the number 5 (one of the claim's own example shapes) makes
parseGenericUsage throw a TypeError through the JS in operator, and a
null SSE event payload (from a data line holding the JSON text null)
makes accumulateStreamUsage throw on its first property read. -/
theorem C6_counterexample :
    (parseGenericUsage (.obj [("usage", .num 5)])).isOk = false ∧
    (accumulateStreamUsage [JVal.null] (.str "openai")).isOk = false := by
  exact ⟨by decide, by decide⟩

/-- C6 (amended). The usage extractors never throw provided the response
body is not nullish and its usage field, when truthy, is of JS object
type (a truthy primitive usage field makes the in operator throw), and
provided no stream event is null; absent fields default to zero and the
model id defaults to the sentinel. -/
theorem C6_parsers_amended :
    (∀ body : JVal, body.neNullish = true →
      ((body.getQ "usage").truthy = true → (body.getQ "usage").typeofObject = true) →
      (parseGenericUsage body).isOk = true) ∧
    (∀ (events : List JVal) (hint : JVal), (∀ e ∈ events, e.neNullish = true) →
      (accumulateStreamUsage events hint).isOk = true) ∧
    parseGenericUsage (.obj []) = .ok (zeroUsage (.str "?")) ∧
    ∀ hint : JVal, accumulateStreamUsage [] hint = .ok (zeroUsage (.str "?")) := by
  refine ⟨parseGenericUsage_ok, accumulateStreamUsage_ok, ?_, fun hint => rfl⟩
  have h : parseGenericUsage (.obj []) =
      .ok ⟨.str "?", .num 0, .num 0, jsAdd (.num 0) (.num 0), .num 0, .num 0⟩ := rfl
  rw [h]
  simp [zeroUsage, jsAdd]

/-- Witness for the amended C6 at concrete inputs: a null usage field and
an Anthropic-tagged event stream. -/
theorem C6_parsers_amended_witness :
    (parseGenericUsage (.obj [("usage", JVal.null), ("model", .str "m")])).isOk = true ∧
    (accumulateStreamUsage [.obj [("type", .str "message_start")]] (.str "openai")).isOk
      = true :=
  ⟨C6_parsers_amended.1 _ (by decide) (by decide),
   C6_parsers_amended.2.1 _ _ (by decide)⟩

-- ## C7: the entry store

theorem mapSet_fresh (m : List (String × Entry)) (k : String) (v : Entry)
    (h : ∀ p ∈ m, p.1 ≠ k) : mapSet m k v = m ++ [(k, v)] := by
  have hf : m.find? (fun p => p.1 == k) = none :=
    List.find?_eq_none.mpr (fun p hp => by simp [h p hp])
  simp [mapSet, hf]

theorem mapDelete_fresh (m : List (String × Entry)) (k : String)
    (h : ∀ p ∈ m, p.1 ≠ k) : mapDelete m k = m := by
  unfold mapDelete
  exact List.filter_eq_self.mpr (fun p hp => by simp [h p hp])

theorem mapGet_absent (m : List (String × Entry)) (k : String)
    (h : ∀ p ∈ m, p.1 ≠ k) : mapGet m k = none := by
  unfold mapGet
  rw [List.find?_eq_none.mpr (fun p hp => by simp [h p hp])]
  rfl

theorem evictAux_le (m : List (String × Entry)) (order : List String)
    (h : order.length ≤ MAX_ENTRIES) : evictAux m order = ⟨m, order⟩ := by
  cases order with
  | nil => rfl
  | cons o rest =>
      unfold evictAux
      rw [if_neg (Nat.not_lt.mpr h)]

theorem evictAux_len (o : List String) :
    ∀ m, (evictAux m o).order.length ≤ MAX_ENTRIES := by
  induction o with
  | nil =>
      intro m
      exact Nat.zero_le _
  | cons x rest ih =>
      intro m
      unfold evictAux
      by_cases h : MAX_ENTRIES < (x :: rest).length
      · rw [if_pos h]; exact ih _
      · rw [if_neg h]; exact Nat.le_of_not_lt h

theorem storeEntry_no_evict (s : Store) (e : Entry)
    (hlen : s.order.length + 1 ≤ MAX_ENTRIES) (hfresh : ∀ p ∈ s.entries, p.1 ≠ e.id) :
    storeEntry s e = ⟨s.entries ++ [(e.id, e)], s.order ++ [e.id]⟩ := by
  unfold storeEntry evictLoop
  simp only [mapSet_fresh s.entries e.id e hfresh]
  exact evictAux_le _ _ (by simpa using hlen)

theorem storeFold_small (es : List Entry) :
    ∀ s : Store, s.order.length + es.length ≤ MAX_ENTRIES →
    (s.entries.map Prod.fst ++ es.map Entry.id).Nodup →
    s.entries.map Prod.fst = s.order →
    es.foldl storeEntry s =
      ⟨s.entries ++ es.map (fun e => (e.id, e)), s.order ++ es.map Entry.id⟩ := by
  induction es with
  | nil =>
      intro s _hl _hn _hc
      simp
  | cons e es ih =>
      intro s hl hn hc
      have hdisj : (s.entries.map Prod.fst).Disjoint (e.id :: es.map Entry.id) :=
        (List.nodup_append.mp hn).2.2
      have hfresh : ∀ p ∈ s.entries, p.1 ≠ e.id := by
        intro p hp heq
        exact hdisj (List.mem_map_of_mem Prod.fst hp)
          (by rw [heq]; exact List.mem_cons_self _ _)
      have hl1 : s.order.length + 1 ≤ MAX_ENTRIES := by
        simp only [List.length_cons] at hl
        omega
      rw [List.foldl_cons, storeEntry_no_evict s e hl1 hfresh]
      have hl2 : (s.order ++ [e.id]).length + es.length ≤ MAX_ENTRIES := by
        simp only [List.length_append, List.length_singleton, List.length_cons,
          List.length_nil] at hl ⊢
        omega
      have hn2 : ((s.entries ++ [(e.id, e)]).map Prod.fst ++ es.map Entry.id).Nodup := by
        simpa [List.append_assoc] using hn
      have hc2 : (s.entries ++ [(e.id, e)]).map Prod.fst = s.order ++ [e.id] := by
        simp [hc]
      rw [ih ⟨s.entries ++ [(e.id, e)], s.order ++ [e.id]⟩ hl2 hn2 hc2]
      simp

theorem pairs_keys (l : List Entry) :
    (l.map (fun e => (e.id, e))).map Prod.fst = l.map Entry.id := by
  induction l with
  | nil => rfl
  | cons h t ih => simp [ih]

theorem mapGet_pairs (l : List Entry) (hnd : (l.map Entry.id).Nodup) :
    ∀ x ∈ l, mapGet (l.map (fun e => (e.id, e))) x.id = some x := by
  induction l with
  | nil => intro x hx; cases hx
  | cons h t ih =>
      intro x hx
      rcases List.mem_cons.mp hx with rfl | hx2
      · unfold mapGet
        simp [List.find?_cons]
      · have hne : h.id ≠ x.id := by
          intro heq
          have : h.id ∈ t.map Entry.id := by
            rw [heq]
            exact List.mem_map_of_mem Entry.id hx2
          exact (List.nodup_cons.mp hnd).1 this
        have ihx := ih (List.nodup_cons.mp hnd).2 x hx2
        unfold mapGet at ihx ⊢
        rw [List.map_cons, List.find?_cons_of_neg _ (by simp [hne])]
        exact ihx

theorem storeEntry_evict_one (s : Store) (e : Entry)
    (hlen : s.order.length = MAX_ENTRIES)
    (hfresh : ∀ p ∈ s.entries, p.1 ≠ e.id)
    (hcoh : s.entries.map Prod.fst = s.order)
    (hnd : s.order.Nodup) :
    storeEntry s e = ⟨(s.entries ++ [(e.id, e)]).drop 1, (s.order ++ [e.id]).drop 1⟩ := by
  unfold storeEntry evictLoop
  rw [mapSet_fresh _ _ _ hfresh]
  cases horder : s.order with
  | nil =>
      rw [horder] at hlen
      simp [MAX_ENTRIES] at hlen
  | cons o rest =>
      cases hentries : s.entries with
      | nil =>
          rw [hentries, horder] at hcoh
          simp at hcoh
      | cons p ps =>
          rw [hentries, horder] at hcoh
          simp only [List.map_cons, List.cons.injEq] at hcoh
          obtain ⟨hpk, hpsk⟩ := hcoh
          rw [horder] at hlen hnd
          have hrest : rest.length = MAX_ENTRIES - 1 := by
            simp only [List.length_cons] at hlen
            omega
          have hfull : MAX_ENTRIES < ((o :: rest) ++ [e.id]).length := by
            simp only [List.cons_append, List.length_cons, List.length_append,
              List.length_singleton]
            omega
          show evictAux ((p :: ps) ++ [(e.id, e)]) ((o :: rest) ++ [e.id]) = _
          rw [List.cons_append, List.cons_append]
          unfold evictAux
          rw [if_pos (by simpa using hfull)]
          have hdel : mapDelete ((p :: (ps ++ [(e.id, e)]))) o = ps ++ [(e.id, e)] := by
            unfold mapDelete
            rw [List.filter_cons]
            have hpo : (!(p.1 == o)) = false := by simp [hpk]
            rw [hpo]
            simp only [Bool.false_eq_true, if_false]
            apply List.filter_eq_self.mpr
            intro q hq
            rcases List.mem_append.mp hq with hq1 | hq2
            · have hqk : q.1 ∈ ps.map Prod.fst := List.mem_map_of_mem Prod.fst hq1
              rw [hpsk] at hqk
              have : q.1 ≠ o := by
                intro heq
                rw [heq] at hqk
                exact (List.nodup_cons.mp hnd).1 hqk
              simp [this]
            · have : q = (e.id, e) := by simpa using hq2
              subst this
              have heo : e.id ≠ o := by
                have := hfresh p (by rw [hentries]; exact List.mem_cons_self _ _)
                rw [hpk] at this
                exact fun h => this h.symm
              simp [heo]
          rw [show (mapDelete (p :: (ps ++ [(e.id, e)])) o) = ps ++ [(e.id, e)] from hdel]
          have hlen2 : rest.length + 1 = MAX_ENTRIES := by simpa using hlen
          rw [evictAux_le (ps ++ [(e.id, e)]) (rest ++ [e.id]) (by
            simp only [List.length_append, List.length_cons, List.length_nil]
            omega)]
          simp

/-- C7. The store never exceeds the fixed capacity of 500 entries; storing
capacity+1 entries with fresh ids into the empty store leaves exactly
capacity entries, the first-stored id is evicted from both the index and
the order list while all later ids keep their original relative order, and
getAllEntries returns the stored entries newest first. -/
theorem C7_store_eviction (es : List Entry) (hlen : es.length = MAX_ENTRIES + 1)
    (hnodup : (es.map Entry.id).Nodup) :
    (es.foldl storeEntry emptyStore).order = (es.map Entry.id).drop 1 ∧
    (es.foldl storeEntry emptyStore).order.length = MAX_ENTRIES ∧
    (es.foldl storeEntry emptyStore).entries = (es.drop 1).map (fun e => (e.id, e)) ∧
    (∀ e0, es.head? = some e0 → getEntry (es.foldl storeEntry emptyStore) e0.id = none) ∧
    getAllEntries (es.foldl storeEntry emptyStore) = ((es.drop 1).map some).reverse ∧
    (∀ (s : Store) (e : Entry), (storeEntry s e).order.length ≤ MAX_ENTRIES) := by
  have hne : es ≠ [] := by
    intro h
    rw [h] at hlen
    simp [MAX_ENTRIES] at hlen
  obtain ⟨init, x, hx⟩ : ∃ init x, es = init ++ [x] :=
    ⟨es.dropLast, es.getLast hne, (List.dropLast_append_getLast hne).symm⟩
  have hinitlen : init.length = MAX_ENTRIES := by
    rw [hx] at hlen
    simp only [List.length_append, List.length_singleton] at hlen
    omega
  have hids : es.map Entry.id = init.map Entry.id ++ [x.id] := by
    rw [hx]
    simp
  have hnodup2 : (init.map Entry.id ++ [x.id]).Nodup := by rw [← hids]; exact hnodup
  have hninit : (init.map Entry.id).Nodup := (List.nodup_append.mp hnodup2).1
  have hxid : ∀ a ∈ init.map Entry.id, a ≠ x.id := by
    intro a ha heq
    exact (List.nodup_append.mp hnodup2).2.2 ha (by rw [heq]; simp)
  have hfold1 : init.foldl storeEntry emptyStore =
      ⟨init.map (fun e => (e.id, e)), init.map Entry.id⟩ := by
    have := storeFold_small init emptyStore
      (by simp [emptyStore, hinitlen]) (by simpa [emptyStore] using hninit)
      (by rfl)
    simpa [emptyStore] using this
  have hfoldes : es.foldl storeEntry emptyStore =
      storeEntry ⟨init.map (fun e => (e.id, e)), init.map Entry.id⟩ x := by
    rw [hx, List.foldl_append, hfold1]
    rfl
  have hfresh : ∀ p ∈ init.map (fun e => (e.id, e)), p.1 ≠ x.id := by
    intro p hp
    obtain ⟨e, he, rfl⟩ := List.mem_map.mp hp
    exact hxid e.id (List.mem_map_of_mem Entry.id he)
  have hevict := storeEntry_evict_one ⟨init.map (fun e => (e.id, e)), init.map Entry.id⟩ x
    (by simpa using hinitlen) hfresh (pairs_keys init) hninit
  have hmain : es.foldl storeEntry emptyStore =
      ⟨((init ++ [x]).map (fun e => (e.id, e))).drop 1,
       ((init ++ [x]).map Entry.id).drop 1⟩ := by
    rw [hfoldes, hevict]
    simp
  have hdropmap : ∀ {α : Type} (f : Entry → α) (l : List Entry),
      (l.map f).drop 1 = (l.drop 1).map f := by
    intro α f l
    cases l <;> simp
  refine ⟨?_, ?_, ?_, ?_, ?_, ?_⟩
  · rw [hmain, ← hx]
  · rw [hmain]
    rw [← hx]
    simp only [List.length_drop, List.length_map, hlen]
    rfl
  · rw [hmain, hdropmap, ← hx]
  · intro e0 he0
    rw [hmain, ← hx]
    cases hes : es with
    | nil => rw [hes] at he0; simp at he0
    | cons a t =>
        have hae : a = e0 := by
          rw [hes] at he0
          simpa using he0
        have hnota : a.id ∉ t.map Entry.id := by
          rw [hes] at hnodup
          simp only [List.map_cons, List.nodup_cons] at hnodup
          exact hnodup.1
        unfold getEntry
        apply mapGet_absent
        intro p hp
        simp only [List.map_cons, List.drop_succ_cons, List.drop_zero] at hp
        obtain ⟨e, he, rfl⟩ := List.mem_map.mp hp
        rw [← hae]
        intro heq
        exact hnota (by rw [← heq]; exact List.mem_map_of_mem Entry.id he)
  · rw [hmain, ← hx]
    unfold getAllEntries
    simp only
    rw [hdropmap Entry.id es, hdropmap (fun e => (e.id, e)) es, List.map_map]
    have hdnd : ((es.drop 1).map Entry.id).Nodup := by
      rw [← hdropmap Entry.id es]
      exact List.Nodup.sublist (List.drop_sublist 1 (es.map Entry.id)) hnodup
    congr 1
    apply List.map_congr_left
    intro e he
    exact mapGet_pairs (es.drop 1) hdnd e he
  · intro s e
    unfold storeEntry evictLoop
    exact evictAux_len _ _

/-- Witness for C7: 501 synthetic entries with distinct ids. -/
theorem C7_store_eviction_witness :
    (testEntries.foldl storeEntry emptyStore).order = (testEntries.map Entry.id).drop 1 ∧
    (testEntries.foldl storeEntry emptyStore).order.length = MAX_ENTRIES ∧
    (testEntries.foldl storeEntry emptyStore).entries =
      (testEntries.drop 1).map (fun e => (e.id, e)) ∧
    (∀ e0, testEntries.head? = some e0 →
      getEntry (testEntries.foldl storeEntry emptyStore) e0.id = none) ∧
    getAllEntries (testEntries.foldl storeEntry emptyStore) =
      ((testEntries.drop 1).map some).reverse ∧
    (∀ (s : Store) (e : Entry), (storeEntry s e).order.length ≤ MAX_ENTRIES) :=
  C7_store_eviction testEntries (by simp [testEntries])
    (by
      have hinj : Function.Injective (fun n : Nat => String.mk (List.replicate n 'a')) := by
        intro a b hab
        have := congrArg (fun s : String => s.data.length) hab
        simpa using this
      have hmap : testEntries.map Entry.id =
          (List.range (MAX_ENTRIES + 1)).map (fun n => String.mk (List.replicate n 'a')) := by
        simp only [testEntries, List.map_map]
        rfl
      rw [hmap]
      exact List.Nodup.map hinj (List.nodup_range _))

-- ## C8: upstream URL construction

/-- C8. For every configured base URL and rest path, the upstream URL is
the base with its trailing slashes stripped, concatenated directly with
the rest: a base not ending in a slash survives unchanged (so path
segments already present in it, such as /api/v3, are preserved rather
than replaced), and appending any number of trailing slashes to the base
never changes the result. -/
theorem C8_upstream_url (b r : String) (hb : b.data.getLast? ≠ some '/') :
    buildUpstreamUrl b r = b ++ r ∧
    ∀ k : Nat, buildUpstreamUrl (b ++ String.mk (List.replicate k '/')) r = b ++ r := by
  have hnd : b.data.reverse.dropWhile (fun c => c = '/') = b.data.reverse := by
    cases hd : b.data.reverse with
    | nil => rfl
    | cons c cs =>
        rw [List.dropWhile_cons]
        have hc : ¬ (c = '/') := by
          intro hc
          apply hb
          rw [← List.head?_reverse, hd, hc]
          rfl
        simp [hc]
  have hstrip : stripTrailingSlashes b = b := by
    apply String.ext
    show (b.data.reverse.dropWhile (fun c => c = '/')).reverse = b.data
    rw [hnd, List.reverse_reverse]
  have hdw : ∀ (k : Nat) (l : List Char),
      (List.replicate k '/' ++ l).dropWhile (fun c => c = '/') =
        l.dropWhile (fun c => c = '/') := by
    intro k
    induction k with
    | zero => intro l; simp
    | succ n ih => intro l; simp [List.replicate_succ, List.dropWhile_cons, ih]
  refine ⟨by unfold buildUpstreamUrl; rw [hstrip], ?_⟩
  intro k
  unfold buildUpstreamUrl
  have hstrip2 : stripTrailingSlashes (b ++ String.mk (List.replicate k '/')) = b := by
    apply String.ext
    show ((b ++ String.mk (List.replicate k '/')).data.reverse.dropWhile
        (fun c => c = '/')).reverse = b.data
    have hdata : (b ++ String.mk (List.replicate k '/')).data =
        b.data ++ List.replicate k '/' := rfl
    rw [hdata, List.reverse_append, List.reverse_replicate, hdw, hnd, List.reverse_reverse]
  rw [hstrip2]

/-- Witness for C8 at the specification's example: base
https://host/api/v3 with rest /chat. -/
theorem C8_upstream_url_witness :
    buildUpstreamUrl "https://host/api/v3" "/chat" = "https://host/api/v3" ++ "/chat" ∧
    ∀ k : Nat, buildUpstreamUrl ("https://host/api/v3" ++ String.mk (List.replicate k '/'))
      "/chat" = "https://host/api/v3" ++ "/chat" :=
  C8_upstream_url "https://host/api/v3" "/chat" (by decide)


-- ## The proxy run: shared reductions

theorem handleProxy_unknown (jp : String → Option JVal) (table : List (String × Price))
    (tm : List (String × String)) (store : Store) (req : ReqInfo)
    (uuid : String) (t0 t1 : Nat) (sc : UpstreamScenario)
    (hres : tm.find? (fun p => p.1 == (providerRest req.url).1) = none) :
    handleProxy jp table tm store req uuid t0 t1 sc =
      (store,
       [.resWriteHead 502 [("content-type", "application/json")],
        .resEnd (some (errBody ("Unknown provider: " ++ (providerRest req.url).1)))],
       none) := by
  rcases hpr : providerRest req.url with ⟨provider, rest⟩
  have hres2 : tm.find? (fun p => p.1 == provider) = none := by
    rw [hpr] at hres; exact hres
  simp only [handleProxy, hpr, hres2, Option.map_none']

theorem handleProxy_known (jp : String → Option JVal) (table : List (String × Price))
    (tm : List (String × String)) (store : Store) (req : ReqInfo)
    (uuid : String) (t0 t1 : Nat) (sc : UpstreamScenario) (kv : String × String)
    (hres : tm.find? (fun p => p.1 == (providerRest req.url).1) = some kv) :
    handleProxy jp table tm store req uuid t0 t1 sc =
      (let e0 := pendingEntry req uuid t0
       let store1 := storeEntry store e0
       let pre := preEffects req uuid t0 kv.2
       match sc with
       | .connError msg =>
           let r := proxyReqErrorHandler msg t1 false e0
           (updateEntry store1 r.1, pre ++ r.2, some r.1)
       | .respThenConnError status hdrs chunks msg =>
           let r := proxyReqErrorHandler msg t1 true
             { e0 with status := some status, resHeaders := some hdrs }
           (updateEntry store1 r.1,
            pre ++ [.resWriteHead status hdrs] ++ chunks.map Effect.resWrite ++ r.2,
            some r.1)
       | .resp status hdrs chunks streamErr =>
           let e1 : Entry := { e0 with status := some status, resHeaders := some hdrs }
           let relay := Effect.resWriteHead status hdrs :: chunks.map Effect.resWrite
           if isSSEHeaders hdrs then
             match streamErr with
             | none =>
                 let r := sseEndHandler jp table (providerRest req.url).1 chunks t1 e1
                 (updateEntry store1 r.1, pre ++ relay ++ r.2, some r.1)
             | some msg =>
                 let r := sseErrorHandler msg t1 e1
                 (updateEntry store1 r.1, pre ++ relay ++ r.2, some r.1)
           else
             match streamErr with
             | none =>
                 let r := bufferedEndHandler jp table chunks t1 e1
                 (updateEntry store1 r.1, pre ++ relay ++ r.2, some r.1)
             | some msg =>
                 let r := bufferedErrorHandler msg t1 e1
                 (updateEntry store1 r.1, pre ++ relay ++ r.2, some r.1)) := by
  rcases hpr : providerRest req.url with ⟨provider, rest⟩
  have hres2 : tm.find? (fun p => p.1 == provider) = some kv := by
    rw [hpr] at hres; exact hres
  simp only [handleProxy, pendingEntry, preEffects, hpr, hres2, Option.map_some']
  cases sc <;> rfl


theorem countRecord_append (a b : List Effect) :
    countRecord (a ++ b) = countRecord a + countRecord b :=
  List.countP_append _ _ _

theorem countRecord_pre (req : ReqInfo) (uuid : String) (t0 : Nat) (tb : String) :
    countRecord (preEffects req uuid t0 tb) = 0 := by
  rcases hpr : providerRest req.url with ⟨provider, rest⟩
  simp [preEffects, hpr, countRecord, List.countP_cons, List.countP_nil]

theorem countRecord_resWrite (chunks : List String) :
    countRecord (chunks.map Effect.resWrite) = 0 := by
  induction chunks with
  | nil => rfl
  | cons c cs ih => simpa [countRecord, List.countP_cons] using ih

theorem countRecord_proxyReqErr (msg : String) (t1 : Nat) (hs : Bool) (e : Entry) :
    countRecord (proxyReqErrorHandler msg t1 hs e).2 = 0 := by
  cases hs <;>
    simp [proxyReqErrorHandler, countRecord, List.countP_cons, List.countP_nil,
      List.countP_append]

theorem countRecord_sseErr (msg : String) (t1 : Nat) (e : Entry) :
    countRecord (sseErrorHandler msg t1 e).2 = 0 := by
  simp [sseErrorHandler, countRecord, List.countP_cons, List.countP_nil]

theorem countRecord_bufErr (msg : String) (t1 : Nat) (e : Entry) :
    countRecord (bufferedErrorHandler msg t1 e).2 = 1 := by
  simp [bufferedErrorHandler, countRecord, List.countP_cons, List.countP_nil]

theorem countRecord_bufEnd (jp : String → Option JVal) (table : List (String × Price))
    (chunks : List String) (t1 : Nat) (e : Entry) :
    countRecord (bufferedEndHandler jp table chunks t1 e).2 = 1 := by
  simp [bufferedEndHandler, countRecord, List.countP_cons, List.countP_nil]

theorem countRecord_sseEnd (jp : String → Option JVal) (table : List (String × Price))
    (provider : String) (chunks : List String) (t1 : Nat) (e : Entry) :
    countRecord (sseEndHandler jp table provider chunks t1 e).2 =
      (match accumulateStreamUsage (parseSSEEvents jp (String.join chunks))
          (.str (if detectApiFamily provider = "anthropic" then "anthropic" else "openai")) with
       | .error _ => 0
       | .ok u =>
         match calculateCost table (jsOr u.model e.reqModel) (some u) with
         | .error _ => 0
         | .ok _ => 1) := by
  unfold sseEndHandler
  cases hacc : accumulateStreamUsage (parseSSEEvents jp (String.join chunks))
      (.str (if detectApiFamily provider = "anthropic" then "anthropic" else "openai")) with
  | error err =>
      simp [hacc, countRecord, List.countP_cons, List.countP_nil]
  | ok u =>
      cases hc : calculateCost table (jsOr u.model e.reqModel) (some u) with
      | error err =>
          simp [hacc, costLine, hc, countRecord, List.countP_cons, List.countP_nil]
      | ok c =>
          simp [hacc, costLine, hc, countRecord, List.countP_cons, List.countP_nil]

theorem sseEndHandler_final (jp : String → Option JVal) (table : List (String × Price))
    (provider : String) (chunks : List String) (t1 : Nat) (e : Entry) :
    (sseEndHandler jp table provider chunks t1 e).1.state = "done" ∧
    (sseEndHandler jp table provider chunks t1 e).1.id = e.id := by
  unfold sseEndHandler
  dsimp only
  split
  · exact ⟨rfl, rfl⟩
  · split
    · exact ⟨rfl, rfl⟩
    · exact ⟨rfl, rfl⟩

theorem bufferedEndHandler_final (jp : String → Option JVal) (table : List (String × Price))
    (chunks : List String) (t1 : Nat) (e : Entry) :
    (bufferedEndHandler jp table chunks t1 e).1.state = "done" ∧
    (bufferedEndHandler jp table chunks t1 e).1.id = e.id := by
  unfold bufferedEndHandler
  dsimp only
  split
  · exact ⟨rfl, rfl⟩
  · split
    · exact ⟨rfl, rfl⟩
    · split
      · exact ⟨rfl, rfl⟩
      · exact ⟨rfl, rfl⟩


theorem countRecord_relay (status : Nat) (hdrs : List (String × String))
    (chunks : List String) :
    countRecord (Effect.resWriteHead status hdrs :: chunks.map Effect.resWrite) = 0 := by
  have h := countRecord_resWrite chunks
  simpa [countRecord, List.countP_cons] using h

theorem mapGet_update_append (m : List (String × Entry)) (e0 efin : Entry)
    (hfresh : ∀ p ∈ m, p.1 ≠ efin.id) :
    mapGet ((m ++ [(efin.id, e0)]).map
      (fun p => if p.1 == efin.id then (efin.id, efin) else p)) efin.id = some efin := by
  induction m with
  | nil =>
      simp [mapGet, List.find?]
  | cons a t ih =>
      have ha : a.1 ≠ efin.id := hfresh a (List.mem_cons_self a t)
      have ih2 := ih (fun p hp => hfresh p (List.mem_cons_of_mem a hp))
      simp only [List.cons_append, List.map_cons]
      rw [if_neg (by simp [ha])]
      simp only [mapGet] at ih2 ⊢
      rw [List.find?_cons_of_neg _ (by simp [ha])]
      exact ih2

theorem getEntry_store_update (store : Store) (e0 efin : Entry)
    (hid : efin.id = e0.id)
    (hfresh : ∀ p ∈ store.entries, p.1 ≠ e0.id)
    (hcap : store.order.length + 1 ≤ MAX_ENTRIES) :
    getEntry (updateEntry (storeEntry store e0) efin) efin.id = some efin := by
  rw [storeEntry_no_evict store e0 hcap hfresh]
  unfold updateEntry getEntry
  dsimp only
  rw [← hid]
  exact mapGet_update_append store.entries e0 efin
    (fun p hp => by rw [hid]; exact hfresh p hp)


-- ## C9: the unknown-provider response

/-- C9: for every request whose path-embedded provider token has no
mapping in the current target map, `handleProxy` leaves the store
untouched, creates no entry, responds with status exactly 502 and the
JSON body obj [(error, "Unknown provider: <name>")] carrying the provider
name, and attempts no upstream connection. -/
theorem C9_unknown_provider (jp : String → Option JVal) (table : List (String × Price))
    (tm : List (String × String)) (store : Store) (req : ReqInfo)
    (uuid : String) (t0 t1 : Nat) (sc : UpstreamScenario)
    (hres : tm.find? (fun p => p.1 == (providerRest req.url).1) = none) :
    handleProxy jp table tm store req uuid t0 t1 sc =
      (store,
       [.resWriteHead 502 [("content-type", "application/json")],
        .resEnd (some (errBody ("Unknown provider: " ++ (providerRest req.url).1)))],
       none) ∧
    countConnect (handleProxy jp table tm store req uuid t0 t1 sc).2.1 = 0 := by
  have h := handleProxy_unknown jp table tm store req uuid t0 t1 sc hres
  refine ⟨h, ?_⟩
  rw [h]
  simp [countConnect, List.countP_cons, List.countP_nil]

/-- Witness for C9 at a concrete run: provider "ghost" missing from a
one-entry target map. -/
theorem C9_unknown_provider_witness :
    handleProxy (fun _ => none) [] [("openai", "https://api.openai.com")] emptyStore
        ⟨"/ghost/v1/messages", "POST", [], "", none⟩ "u1" 0 5 (.connError "x") =
      (emptyStore,
       [.resWriteHead 502 [("content-type", "application/json")],
        .resEnd (some (errBody ("Unknown provider: " ++
          (providerRest "/ghost/v1/messages").1)))],
       none) ∧
    countConnect (handleProxy (fun _ => none) [] [("openai", "https://api.openai.com")]
        emptyStore ⟨"/ghost/v1/messages", "POST", [], "", none⟩ "u1" 0 5
        (.connError "x")).2.1 = 0 :=
  C9_unknown_provider (fun _ => none) [] [("openai", "https://api.openai.com")] emptyStore
    ⟨"/ghost/v1/messages", "POST", [], "", none⟩ "u1" 0 5 (.connError "x") (by decide)

-- ## C1: persistence notifications

/-- C1 counterexample: two runs that reach the terminal state "error" —
an upstream connection failure and a mid-stream SSE error — while the
persistence collaborator is notified zero times, not exactly once. -/
theorem C1_counterexample :
    ((handleProxy (fun _ => none) [] [("p", "http://u/api/v3")] emptyStore
        ⟨"/p/x", "POST", [], "", none⟩ "u1" 0 5 (.connError "boom")).2.2.map
          Entry.state = some "error" ∧
     countRecord (handleProxy (fun _ => none) [] [("p", "http://u/api/v3")] emptyStore
        ⟨"/p/x", "POST", [], "", none⟩ "u1" 0 5 (.connError "boom")).2.1 = 0) ∧
    ((handleProxy (fun _ => none) [] [("p", "http://u/api/v3")] emptyStore
        ⟨"/p/x", "POST", [], "", none⟩ "u1" 0 5
        (.resp 200 [("content-type", "text/event-stream")] ["data: hi"] (some "reset"))).2.2.map
          Entry.state = some "error" ∧
     countRecord (handleProxy (fun _ => none) [] [("p", "http://u/api/v3")] emptyStore
        ⟨"/p/x", "POST", [], "", none⟩ "u1" 0 5
        (.resp 200 [("content-type", "text/event-stream")] ["data: hi"] (some "reset"))).2.1
       = 0) := by
  decide

-- ## C2: entry creation and provider resolution

/-- C2 counterexample: a handled request whose provider token is unknown.
No entry is created or stored, nothing is broadcast (in particular no
"new" event) and nothing persisted — entry creation does not precede
provider resolution. -/
theorem C2_counterexample :
    (handleProxy (fun _ => none) [] [("openai", "https://api.openai.com")] emptyStore
        ⟨"/ghost/v1/messages", "POST", [], "", none⟩ "u1" 0 5
        (.connError "x")).1.entries.length = 0 ∧
    (handleProxy (fun _ => none) [] [("openai", "https://api.openai.com")] emptyStore
        ⟨"/ghost/v1/messages", "POST", [], "", none⟩ "u1" 0 5
        (.connError "x")).1.order = [] ∧
    (handleProxy (fun _ => none) [] [("openai", "https://api.openai.com")] emptyStore
        ⟨"/ghost/v1/messages", "POST", [], "", none⟩ "u1" 0 5
        (.connError "x")).2.2.isNone = true ∧
    countBroadcast (handleProxy (fun _ => none) [] [("openai", "https://api.openai.com")]
        emptyStore ⟨"/ghost/v1/messages", "POST", [], "", none⟩ "u1" 0 5
        (.connError "x")).2.1 = 0 ∧
    countRecord (handleProxy (fun _ => none) [] [("openai", "https://api.openai.com")]
        emptyStore ⟨"/ghost/v1/messages", "POST", [], "", none⟩ "u1" 0 5
        (.connError "x")).2.1 = 0 := by
  decide

-- ## C3: upstream connection failures

/-- C3 counterexample: an upstream connection failure after response
headers were already mirrored to the client. The connection is not simply
closed: the final client write carries the serialized obj [(error,
"Proxy error: boom")] payload (while, as the claim says for the status
line, no 502 head is written). -/
theorem C3_counterexample :
    ((handleProxy (fun _ => none) [] [("p", "http://u/api/v3")] emptyStore
        ⟨"/p/x", "POST", [], "", none⟩ "u1" 0 5
        (.respThenConnError 200 [("content-type", "application/json")] ["partial"]
          "boom")).2.1.getLast?.map
      (fun ef => match ef with
        | Effect.resEnd (some (JVal.obj [(k, JVal.str v)])) => k ++ "|" ++ v
        | _ => "")) = some "error|Proxy error: boom" ∧
    (handleProxy (fun _ => none) [] [("p", "http://u/api/v3")] emptyStore
        ⟨"/p/x", "POST", [], "", none⟩ "u1" 0 5
        (.respThenConnError 200 [("content-type", "application/json")] ["partial"]
          "boom")).2.1.countP
      (fun ef => match ef with
        | Effect.resWriteHead status _ => status == 502
        | _ => false) = 0 := by
  decide


/-- C3 (amended): when the outbound request errors before any response
headers were mirrored, the client receives a 502 head with the serialized
obj [(error, "Proxy error: <msg>")] body; when response headers were
already mirrored, no further status head is written, but the same
serialized error body is still written as the final bytes before the
connection closes (the connection is not simply closed with no additional
bytes). In both cases the entry finalizes as "error" with the failure
message and the arrival-to-failure duration. -/
theorem C3_upstream_error_amended (jp : String → Option JVal)
    (table : List (String × Price)) (tm : List (String × String)) (store : Store)
    (req : ReqInfo) (uuid : String) (t0 t1 : Nat) (msg : String) (kv : String × String)
    (hres : tm.find? (fun p => p.1 == (providerRest req.url).1) = some kv) :
    (∃ e1, handleProxy jp table tm store req uuid t0 t1 (.connError msg) =
        (updateEntry (storeEntry store (pendingEntry req uuid t0)) e1,
         preEffects req uuid t0 kv.2 ++
           [.broadcast "update" (entrySummary e1),
            .resWriteHead 502 [("content-type", "application/json")],
            .resEnd (some (errBody ("Proxy error: " ++ msg)))],
         some e1) ∧
      e1.state = "error" ∧ e1.error = some msg ∧ e1.duration = some (t1 - t0)) ∧
    (∀ status hdrs chunks, ∃ e2,
        handleProxy jp table tm store req uuid t0 t1
            (.respThenConnError status hdrs chunks msg) =
          (updateEntry (storeEntry store (pendingEntry req uuid t0)) e2,
           preEffects req uuid t0 kv.2 ++ [.resWriteHead status hdrs] ++
             chunks.map Effect.resWrite ++
             [.broadcast "update" (entrySummary e2),
              .resEnd (some (errBody ("Proxy error: " ++ msg)))],
           some e2) ∧
      e2.state = "error" ∧ e2.error = some msg ∧ e2.duration = some (t1 - t0)) := by
  constructor
  · refine ⟨(proxyReqErrorHandler msg t1 false (pendingEntry req uuid t0)).1,
      ?_, rfl, rfl, rfl⟩
    rw [handleProxy_known jp table tm store req uuid t0 t1 (.connError msg) kv hres]
    rfl
  · intro status hdrs chunks
    refine ⟨(proxyReqErrorHandler msg t1 true
        { pendingEntry req uuid t0 with status := some status, resHeaders := some hdrs }).1,
      ?_, rfl, rfl, rfl⟩
    rw [handleProxy_known jp table tm store req uuid t0 t1
      (.respThenConnError status hdrs chunks msg) kv hres]
    rfl

/-- Witness for C3 at a concrete run. -/
theorem C3_upstream_error_amended_witness :
    (∃ e1, handleProxy (fun _ => none) [] [("p", "http://u/api/v3")] emptyStore
          ⟨"/p/x", "POST", [], "", none⟩ "u1" 0 5 (.connError "boom") =
        (updateEntry (storeEntry emptyStore
            (pendingEntry ⟨"/p/x", "POST", [], "", none⟩ "u1" 0)) e1,
         preEffects ⟨"/p/x", "POST", [], "", none⟩ "u1" 0 "http://u/api/v3" ++
           [.broadcast "update" (entrySummary e1),
            .resWriteHead 502 [("content-type", "application/json")],
            .resEnd (some (errBody ("Proxy error: " ++ "boom")))],
         some e1) ∧
      e1.state = "error" ∧ e1.error = some "boom" ∧ e1.duration = some (5 - 0)) ∧
    (∀ status hdrs chunks, ∃ e2,
        handleProxy (fun _ => none) [] [("p", "http://u/api/v3")] emptyStore
            ⟨"/p/x", "POST", [], "", none⟩ "u1" 0 5
            (.respThenConnError status hdrs chunks "boom") =
          (updateEntry (storeEntry emptyStore
              (pendingEntry ⟨"/p/x", "POST", [], "", none⟩ "u1" 0)) e2,
           preEffects ⟨"/p/x", "POST", [], "", none⟩ "u1" 0 "http://u/api/v3" ++
             [.resWriteHead status hdrs] ++ chunks.map Effect.resWrite ++
             [.broadcast "update" (entrySummary e2),
              .resEnd (some (errBody ("Proxy error: " ++ "boom")))],
           some e2) ∧
      e2.state = "error" ∧ e2.error = some "boom" ∧ e2.duration = some (5 - 0)) :=
  C3_upstream_error_amended (fun _ => none) [] [("p", "http://u/api/v3")] emptyStore
    ⟨"/p/x", "POST", [], "", none⟩ "u1" 0 5 "boom" ("p", "http://u/api/v3") (by decide)


theorem handleProxy_resp_sse (jp : String → Option JVal) (table : List (String × Price))
    (tm : List (String × String)) (store : Store) (req : ReqInfo)
    (uuid : String) (t0 t1 status : Nat) (hdrs : List (String × String))
    (chunks : List String) (streamErr : Option String) (kv : String × String)
    (hres : tm.find? (fun p => p.1 == (providerRest req.url).1) = some kv)
    (hsse : isSSEHeaders hdrs = true) :
    handleProxy jp table tm store req uuid t0 t1 (.resp status hdrs chunks streamErr) =
      (let e0 := pendingEntry req uuid t0
       let store1 := storeEntry store e0
       let pre := preEffects req uuid t0 kv.2
       let e1 : Entry := { e0 with status := some status, resHeaders := some hdrs }
       let relay := Effect.resWriteHead status hdrs :: chunks.map Effect.resWrite
       match streamErr with
       | none =>
           let r := sseEndHandler jp table (providerRest req.url).1 chunks t1 e1
           (updateEntry store1 r.1, pre ++ relay ++ r.2, some r.1)
       | some msg =>
           let r := sseErrorHandler msg t1 e1
           (updateEntry store1 r.1, pre ++ relay ++ r.2, some r.1)) := by
  rw [handleProxy_known jp table tm store req uuid t0 t1
    (.resp status hdrs chunks streamErr) kv hres]
  dsimp only
  rw [if_pos hsse]

theorem handleProxy_resp_buffered (jp : String → Option JVal)
    (table : List (String × Price)) (tm : List (String × String)) (store : Store)
    (req : ReqInfo) (uuid : String) (t0 t1 status : Nat)
    (hdrs : List (String × String)) (chunks : List String)
    (streamErr : Option String) (kv : String × String)
    (hres : tm.find? (fun p => p.1 == (providerRest req.url).1) = some kv)
    (hsse : isSSEHeaders hdrs = false) :
    handleProxy jp table tm store req uuid t0 t1 (.resp status hdrs chunks streamErr) =
      (let e0 := pendingEntry req uuid t0
       let store1 := storeEntry store e0
       let pre := preEffects req uuid t0 kv.2
       let e1 : Entry := { e0 with status := some status, resHeaders := some hdrs }
       let relay := Effect.resWriteHead status hdrs :: chunks.map Effect.resWrite
       match streamErr with
       | none =>
           let r := bufferedEndHandler jp table chunks t1 e1
           (updateEntry store1 r.1, pre ++ relay ++ r.2, some r.1)
       | some msg =>
           let r := bufferedErrorHandler msg t1 e1
           (updateEntry store1 r.1, pre ++ relay ++ r.2, some r.1)) := by
  rw [handleProxy_known jp table tm store req uuid t0 t1
    (.resp status hdrs chunks streamErr) kv hres]
  dsimp only
  rw [if_neg (by simp [hsse])]

/-- C2 (amended): provider resolution comes first. When the provider
token is unknown, no entry is created, stored, broadcast or persisted —
the run only writes the 502 response. When the provider resolves, the
entry is created in state "pending" under the fresh id, the first two
effects are the "new" broadcast of its summary followed by the upstream
connection attempt, and — for a fresh id within capacity — the finalized
entry is found in the entry store after the run. -/
theorem C2_entry_creation_amended (jp : String → Option JVal)
    (table : List (String × Price)) (tm : List (String × String)) (store : Store)
    (req : ReqInfo) (uuid : String) (t0 t1 : Nat) (sc : UpstreamScenario) :
    (tm.find? (fun p => p.1 == (providerRest req.url).1) = none →
       (handleProxy jp table tm store req uuid t0 t1 sc).1 = store ∧
       (handleProxy jp table tm store req uuid t0 t1 sc).2.2 = none ∧
       countBroadcast (handleProxy jp table tm store req uuid t0 t1 sc).2.1 = 0 ∧
       countRecord (handleProxy jp table tm store req uuid t0 t1 sc).2.1 = 0) ∧
    (∀ kv, tm.find? (fun p => p.1 == (providerRest req.url).1) = some kv →
       (pendingEntry req uuid t0).state = "pending" ∧
       (pendingEntry req uuid t0).id = uuid ∧
       (∃ tail, (handleProxy jp table tm store req uuid t0 t1 sc).2.1 =
          Effect.broadcast "new" (entrySummary (pendingEntry req uuid t0)) ::
          Effect.upstreamConnect (buildUpstreamUrl kv.2 (providerRest req.url).2)
            req.method
            (forwardHeaders req.headers ++
              [("host", urlHost (buildUpstreamUrl kv.2 (providerRest req.url).2))] ++
              (if req.bodyRaw.data.length > 0 then
                [("content-length", toString req.bodyRaw.data.length)] else []))
            req.bodyRaw :: tail) ∧
       ((∀ p ∈ store.entries, p.1 ≠ uuid) → store.order.length + 1 ≤ MAX_ENTRIES →
          ∃ efin, (handleProxy jp table tm store req uuid t0 t1 sc).2.2 = some efin ∧
            efin.id = uuid ∧
            getEntry (handleProxy jp table tm store req uuid t0 t1 sc).1 uuid
              = some efin)) := by
  constructor
  · intro hnone
    rw [handleProxy_unknown jp table tm store req uuid t0 t1 sc hnone]
    refine ⟨rfl, rfl, ?_, ?_⟩ <;>
      simp [countBroadcast, countRecord, List.countP_cons, List.countP_nil]
  · intro kv hkv
    refine ⟨rfl, rfl, ?_, ?_⟩
    · rcases sc with msg | ⟨st, hd, ch, msg⟩ | ⟨st, hd, ch, se⟩
      · rw [handleProxy_known jp table tm store req uuid t0 t1 (.connError msg) kv hkv]
        exact ⟨_, rfl⟩
      · rw [handleProxy_known jp table tm store req uuid t0 t1
          (.respThenConnError st hd ch msg) kv hkv]
        exact ⟨_, rfl⟩
      · cases hsse : isSSEHeaders hd
        · rw [handleProxy_resp_buffered jp table tm store req uuid t0 t1 st hd ch se
            kv hkv hsse]
          cases se <;> exact ⟨_, rfl⟩
        · rw [handleProxy_resp_sse jp table tm store req uuid t0 t1 st hd ch se
            kv hkv hsse]
          cases se <;> exact ⟨_, rfl⟩
    · intro hfresh hcap
      rcases sc with msg | ⟨st, hd, ch, msg⟩ | ⟨st, hd, ch, se⟩
      · rw [handleProxy_known jp table tm store req uuid t0 t1 (.connError msg) kv hkv]
        exact ⟨_, rfl, rfl,
          getEntry_store_update store (pendingEntry req uuid t0)
            (proxyReqErrorHandler msg t1 false (pendingEntry req uuid t0)).1
            rfl hfresh hcap⟩
      · rw [handleProxy_known jp table tm store req uuid t0 t1
          (.respThenConnError st hd ch msg) kv hkv]
        exact ⟨_, rfl, rfl,
          getEntry_store_update store (pendingEntry req uuid t0)
            (proxyReqErrorHandler msg t1 true
              { pendingEntry req uuid t0 with status := some st, resHeaders := some hd }).1
            rfl hfresh hcap⟩
      · cases hsse : isSSEHeaders hd
        · rw [handleProxy_resp_buffered jp table tm store req uuid t0 t1 st hd ch se
            kv hkv hsse]
          cases se with
          | none =>
              refine ⟨(bufferedEndHandler jp table ch t1
                  { pendingEntry req uuid t0 with status := some st, resHeaders := some hd }).1,
                rfl, (bufferedEndHandler_final jp table ch t1 _).2, ?_⟩
              have hgu := getEntry_store_update store (pendingEntry req uuid t0)
                (bufferedEndHandler jp table ch t1
                  { pendingEntry req uuid t0 with status := some st, resHeaders := some hd }).1
                ((bufferedEndHandler_final jp table ch t1 _).2) hfresh hcap
              rw [(bufferedEndHandler_final jp table ch t1
                { pendingEntry req uuid t0 with status := some st, resHeaders := some hd }).2]
                at hgu
              exact hgu
          | some msg =>
              exact ⟨_, rfl, rfl,
                getEntry_store_update store (pendingEntry req uuid t0)
                  (bufferedErrorHandler msg t1
                    { pendingEntry req uuid t0 with status := some st, resHeaders := some hd }).1
                  rfl hfresh hcap⟩
        · rw [handleProxy_resp_sse jp table tm store req uuid t0 t1 st hd ch se
            kv hkv hsse]
          cases se with
          | none =>
              refine ⟨(sseEndHandler jp table (providerRest req.url).1 ch t1
                  { pendingEntry req uuid t0 with status := some st, resHeaders := some hd }).1,
                rfl, (sseEndHandler_final jp table (providerRest req.url).1 ch t1 _).2, ?_⟩
              have hgu := getEntry_store_update store (pendingEntry req uuid t0)
                (sseEndHandler jp table (providerRest req.url).1 ch t1
                  { pendingEntry req uuid t0 with status := some st, resHeaders := some hd }).1
                ((sseEndHandler_final jp table (providerRest req.url).1 ch t1 _).2) hfresh hcap
              rw [(sseEndHandler_final jp table (providerRest req.url).1 ch t1
                { pendingEntry req uuid t0 with status := some st, resHeaders := some hd }).2]
                at hgu
              exact hgu
          | some msg =>
              exact ⟨_, rfl, rfl,
                getEntry_store_update store (pendingEntry req uuid t0)
                  (sseErrorHandler msg t1
                    { pendingEntry req uuid t0 with status := some st, resHeaders := some hd }).1
                  rfl hfresh hcap⟩


/-- Witness for C2 at a concrete run with a resolvable provider and an
empty store. -/
theorem C2_entry_creation_amended_witness :
    (pendingEntry ⟨"/p/x", "POST", [], "", none⟩ "u1" 0).state = "pending" ∧
    (pendingEntry ⟨"/p/x", "POST", [], "", none⟩ "u1" 0).id = "u1" ∧
    (∃ tail, (handleProxy (fun _ => none) [] [("p", "http://u/api/v3")] emptyStore
        ⟨"/p/x", "POST", [], "", none⟩ "u1" 0 5 (.connError "boom")).2.1 =
      Effect.broadcast "new"
        (entrySummary (pendingEntry ⟨"/p/x", "POST", [], "", none⟩ "u1" 0)) ::
      Effect.upstreamConnect
        (buildUpstreamUrl ("p", "http://u/api/v3").2 (providerRest "/p/x").2)
        "POST"
        (forwardHeaders [] ++
          [("host", urlHost
            (buildUpstreamUrl ("p", "http://u/api/v3").2 (providerRest "/p/x").2))] ++
          (if ("" : String).data.length > 0 then
            [("content-length", toString ("" : String).data.length)] else []))
        "" :: tail) ∧
    (∃ efin, (handleProxy (fun _ => none) [] [("p", "http://u/api/v3")] emptyStore
        ⟨"/p/x", "POST", [], "", none⟩ "u1" 0 5 (.connError "boom")).2.2 = some efin ∧
      efin.id = "u1" ∧
      getEntry (handleProxy (fun _ => none) [] [("p", "http://u/api/v3")] emptyStore
        ⟨"/p/x", "POST", [], "", none⟩ "u1" 0 5 (.connError "boom")).1 "u1"
        = some efin) := by
  have h := (C2_entry_creation_amended (fun _ => none) [] [("p", "http://u/api/v3")]
      emptyStore ⟨"/p/x", "POST", [], "", none⟩ "u1" 0 5 (.connError "boom")).2
      ("p", "http://u/api/v3") (by decide)
  exact ⟨h.1, h.2.1, h.2.2.1, h.2.2.2 (by simp [emptyStore]) (by decide)⟩


theorem countRecord_writeHead (status : Nat) (hdrs : List (String × String)) :
    countRecord [Effect.resWriteHead status hdrs] = 0 := by
  simp [countRecord, List.countP_cons, List.countP_nil]

/-- C1 (amended): for a resolvable provider, the persistence collaborator
is notified at most once per run, and exactly once only on the
buffered-relay terminal paths ("done" and "error" alike, with the
finalized entry). It is notified zero times when the upstream connection
fails before or after the response headers were mirrored, zero times on a
mid-stream SSE error (both of which still finalize the entry as
"error"), and on the SSE end path once exactly when the stream-usage
accumulation and the cost computation both succeed, else zero times. -/
theorem C1_persistence_amended (jp : String → Option JVal) (table : List (String × Price))
    (tm : List (String × String)) (store : Store) (req : ReqInfo)
    (uuid : String) (t0 t1 : Nat) (sc : UpstreamScenario) (kv : String × String)
    (hres : tm.find? (fun p => p.1 == (providerRest req.url).1) = some kv) :
    countRecord (handleProxy jp table tm store req uuid t0 t1 sc).2.1 ≤ 1 ∧
    (∀ msg,
       (handleProxy jp table tm store req uuid t0 t1 (.connError msg)).2.2.map
         Entry.state = some "error" ∧
       countRecord (handleProxy jp table tm store req uuid t0 t1
         (.connError msg)).2.1 = 0) ∧
    (∀ status hdrs chunks msg,
       (handleProxy jp table tm store req uuid t0 t1
         (.respThenConnError status hdrs chunks msg)).2.2.map Entry.state
           = some "error" ∧
       countRecord (handleProxy jp table tm store req uuid t0 t1
         (.respThenConnError status hdrs chunks msg)).2.1 = 0) ∧
    (∀ status hdrs chunks msg, isSSEHeaders hdrs = true →
       (handleProxy jp table tm store req uuid t0 t1
         (.resp status hdrs chunks (some msg))).2.2.map Entry.state = some "error" ∧
       countRecord (handleProxy jp table tm store req uuid t0 t1
         (.resp status hdrs chunks (some msg))).2.1 = 0) ∧
    (∀ status hdrs chunks msg, isSSEHeaders hdrs = false →
       ∃ efin, (handleProxy jp table tm store req uuid t0 t1
           (.resp status hdrs chunks (some msg))).2.2 = some efin ∧
         efin.state = "error" ∧
         Effect.record efin ∈ (handleProxy jp table tm store req uuid t0 t1
           (.resp status hdrs chunks (some msg))).2.1 ∧
         countRecord (handleProxy jp table tm store req uuid t0 t1
           (.resp status hdrs chunks (some msg))).2.1 = 1) ∧
    (∀ status hdrs chunks, isSSEHeaders hdrs = false →
       ∃ efin, (handleProxy jp table tm store req uuid t0 t1
           (.resp status hdrs chunks none)).2.2 = some efin ∧
         efin.state = "done" ∧
         Effect.record efin ∈ (handleProxy jp table tm store req uuid t0 t1
           (.resp status hdrs chunks none)).2.1 ∧
         countRecord (handleProxy jp table tm store req uuid t0 t1
           (.resp status hdrs chunks none)).2.1 = 1) ∧
    (∀ status hdrs chunks, isSSEHeaders hdrs = true →
       (handleProxy jp table tm store req uuid t0 t1
         (.resp status hdrs chunks none)).2.2.map Entry.state = some "done" ∧
       countRecord (handleProxy jp table tm store req uuid t0 t1
         (.resp status hdrs chunks none)).2.1 =
         (match accumulateStreamUsage (parseSSEEvents jp (String.join chunks))
             (.str (if detectApiFamily (providerRest req.url).1 = "anthropic"
               then "anthropic" else "openai")) with
          | .error _ => 0
          | .ok u =>
            match calculateCost table
                (jsOr u.model (pendingEntry req uuid t0).reqModel) (some u) with
            | .error _ => 0
            | .ok _ => 1)) := by
  have hconn : ∀ msg,
      (handleProxy jp table tm store req uuid t0 t1 (.connError msg)).2.2.map
        Entry.state = some "error" ∧
      countRecord (handleProxy jp table tm store req uuid t0 t1
        (.connError msg)).2.1 = 0 := by
    intro msg
    rw [handleProxy_known jp table tm store req uuid t0 t1 (.connError msg) kv hres]
    dsimp only
    refine ⟨rfl, ?_⟩
    rw [countRecord_append, countRecord_pre, countRecord_proxyReqErr]
  have hmirror : ∀ status hdrs chunks msg,
      (handleProxy jp table tm store req uuid t0 t1
        (.respThenConnError status hdrs chunks msg)).2.2.map Entry.state
          = some "error" ∧
      countRecord (handleProxy jp table tm store req uuid t0 t1
        (.respThenConnError status hdrs chunks msg)).2.1 = 0 := by
    intro status hdrs chunks msg
    rw [handleProxy_known jp table tm store req uuid t0 t1
      (.respThenConnError status hdrs chunks msg) kv hres]
    dsimp only
    refine ⟨rfl, ?_⟩
    rw [countRecord_append, countRecord_append, countRecord_append, countRecord_pre,
      countRecord_writeHead, countRecord_resWrite, countRecord_proxyReqErr]
  have hsseErr : ∀ status hdrs chunks msg, isSSEHeaders hdrs = true →
      (handleProxy jp table tm store req uuid t0 t1
        (.resp status hdrs chunks (some msg))).2.2.map Entry.state = some "error" ∧
      countRecord (handleProxy jp table tm store req uuid t0 t1
        (.resp status hdrs chunks (some msg))).2.1 = 0 := by
    intro status hdrs chunks msg hsse
    rw [handleProxy_resp_sse jp table tm store req uuid t0 t1 status hdrs chunks
      (some msg) kv hres hsse]
    dsimp only
    refine ⟨rfl, ?_⟩
    rw [countRecord_append, countRecord_append, countRecord_pre, countRecord_relay,
      countRecord_sseErr]
  have hbufErr : ∀ status hdrs chunks msg, isSSEHeaders hdrs = false →
      ∃ efin, (handleProxy jp table tm store req uuid t0 t1
          (.resp status hdrs chunks (some msg))).2.2 = some efin ∧
        efin.state = "error" ∧
        Effect.record efin ∈ (handleProxy jp table tm store req uuid t0 t1
          (.resp status hdrs chunks (some msg))).2.1 ∧
        countRecord (handleProxy jp table tm store req uuid t0 t1
          (.resp status hdrs chunks (some msg))).2.1 = 1 := by
    intro status hdrs chunks msg hsse
    rw [handleProxy_resp_buffered jp table tm store req uuid t0 t1 status hdrs chunks
      (some msg) kv hres hsse]
    dsimp only
    refine ⟨_, rfl, rfl, ?_, ?_⟩
    · simp [bufferedErrorHandler, preEffects, List.mem_append]
    · rw [countRecord_append, countRecord_append, countRecord_pre, countRecord_relay,
        countRecord_bufErr]
  have hbufEnd : ∀ status hdrs chunks, isSSEHeaders hdrs = false →
      ∃ efin, (handleProxy jp table tm store req uuid t0 t1
          (.resp status hdrs chunks none)).2.2 = some efin ∧
        efin.state = "done" ∧
        Effect.record efin ∈ (handleProxy jp table tm store req uuid t0 t1
          (.resp status hdrs chunks none)).2.1 ∧
        countRecord (handleProxy jp table tm store req uuid t0 t1
          (.resp status hdrs chunks none)).2.1 = 1 := by
    intro status hdrs chunks hsse
    rw [handleProxy_resp_buffered jp table tm store req uuid t0 t1 status hdrs chunks
      none kv hres hsse]
    dsimp only
    refine ⟨_, rfl, (bufferedEndHandler_final jp table chunks t1 _).1, ?_, ?_⟩
    · simp [bufferedEndHandler, preEffects, List.mem_append]
    · rw [countRecord_append, countRecord_append, countRecord_pre, countRecord_relay,
        countRecord_bufEnd]
  have hsseEnd : ∀ status hdrs chunks, isSSEHeaders hdrs = true →
      (handleProxy jp table tm store req uuid t0 t1
        (.resp status hdrs chunks none)).2.2.map Entry.state = some "done" ∧
      countRecord (handleProxy jp table tm store req uuid t0 t1
        (.resp status hdrs chunks none)).2.1 =
        (match accumulateStreamUsage (parseSSEEvents jp (String.join chunks))
            (.str (if detectApiFamily (providerRest req.url).1 = "anthropic"
              then "anthropic" else "openai")) with
         | .error _ => 0
         | .ok u =>
           match calculateCost table
               (jsOr u.model (pendingEntry req uuid t0).reqModel) (some u) with
           | .error _ => 0
           | .ok _ => 1) := by
    intro status hdrs chunks hsse
    rw [handleProxy_resp_sse jp table tm store req uuid t0 t1 status hdrs chunks
      none kv hres hsse]
    dsimp only
    constructor
    · simp only [Option.map_some']
      exact congrArg some
        ((sseEndHandler_final jp table (providerRest req.url).1 chunks t1 _).1)
    · rw [countRecord_append, countRecord_append, countRecord_pre, countRecord_relay,
        countRecord_sseEnd]
      simp only [Nat.zero_add]
  refine ⟨?_, hconn, hmirror, hsseErr, hbufErr, hbufEnd, hsseEnd⟩
  rcases sc with msg | ⟨status, hdrs, chunks, msg⟩ | ⟨status, hdrs, chunks, se⟩
  · rw [(hconn msg).2]
    exact Nat.zero_le 1
  · rw [(hmirror status hdrs chunks msg).2]
    exact Nat.zero_le 1
  · cases hsse : isSSEHeaders hdrs
    · cases se with
      | none =>
          obtain ⟨efin, -, -, -, hcount⟩ := hbufEnd status hdrs chunks hsse
          rw [hcount]
      | some msg =>
          obtain ⟨efin, -, -, -, hcount⟩ := hbufErr status hdrs chunks msg hsse
          rw [hcount]
    · cases se with
      | none =>
          rw [(hsseEnd status hdrs chunks hsse).2]
          cases hA : accumulateStreamUsage (parseSSEEvents jp (String.join chunks))
              (.str (if detectApiFamily (providerRest req.url).1 = "anthropic"
                then "anthropic" else "openai")) with
          | error e => simp [hA]
          | ok u =>
              cases hB : calculateCost table
                  (jsOr u.model (pendingEntry req uuid t0).reqModel) (some u) with
              | error e => simp [hA, hB]
              | ok c => simp [hA, hB]
      | some msg =>
          rw [(hsseErr status hdrs chunks msg hsse).2]
          exact Nat.zero_le 1


/-- Witness for C1 at a concrete run: the upstream-failure case records
zero times, the buffered "done" case exactly once. -/
theorem C1_persistence_amended_witness :
    countRecord (handleProxy (fun _ => none) [] [("p", "http://u/api/v3")] emptyStore
        ⟨"/p/x", "POST", [], "", none⟩ "u1" 0 5 (.connError "boom")).2.1 ≤ 1 ∧
    ((handleProxy (fun _ => none) [] [("p", "http://u/api/v3")] emptyStore
        ⟨"/p/x", "POST", [], "", none⟩ "u1" 0 5 (.connError "boom")).2.2.map
          Entry.state = some "error" ∧
     countRecord (handleProxy (fun _ => none) [] [("p", "http://u/api/v3")] emptyStore
        ⟨"/p/x", "POST", [], "", none⟩ "u1" 0 5 (.connError "boom")).2.1 = 0) ∧
    (∃ efin, (handleProxy (fun _ => none) [] [("p", "http://u/api/v3")] emptyStore
          ⟨"/p/x", "POST", [], "", none⟩ "u1" 0 5
          (.resp 200 [("content-type", "application/json")] ["ok"] none)).2.2
        = some efin ∧
       efin.state = "done" ∧
       Effect.record efin ∈ (handleProxy (fun _ => none) [] [("p", "http://u/api/v3")]
          emptyStore ⟨"/p/x", "POST", [], "", none⟩ "u1" 0 5
          (.resp 200 [("content-type", "application/json")] ["ok"] none)).2.1 ∧
       countRecord (handleProxy (fun _ => none) [] [("p", "http://u/api/v3")]
          emptyStore ⟨"/p/x", "POST", [], "", none⟩ "u1" 0 5
          (.resp 200 [("content-type", "application/json")] ["ok"] none)).2.1 = 1) := by
  have h := C1_persistence_amended (fun _ => none) [] [("p", "http://u/api/v3")]
      emptyStore ⟨"/p/x", "POST", [], "", none⟩ "u1" 0 5 (.connError "boom")
      ("p", "http://u/api/v3") (by decide)
  exact ⟨h.1, h.2.1 "boom",
    h.2.2.2.2.2.1 200 [("content-type", "application/json")] ["ok"] (by decide)⟩


-- ## C10: the server router gate

set_option maxHeartbeats 1000000 in
theorem routeRequest_notFound (url method : String) (targets : List (String × String))
    (hfix : isFixedRoute url method = false)
    (hnone : targets.find? (fun p => p.1 == (providerRest url).1) = none) :
    routeRequest url method targets = .notFound := by
  unfold routeRequest
  split_ifs with h1 h2 h3 h4 h5 h6 h7 h8 h9 h10 h11
  · exfalso; rcases h1 with h | h <;> simp [isFixedRoute, h] at hfix
  · exfalso; simp [isFixedRoute, h2.1, h2.2] at hfix
  · exfalso; simp [isFixedRoute, h3.1, h3.2] at hfix
  · exfalso; simp [isFixedRoute, h4.1, h4.2] at hfix
  · exfalso; simp [isFixedRoute, h5.1, h5.2] at hfix
  · exfalso; simp [isFixedRoute, h6.1, h6.2] at hfix
  · exfalso; simp [isFixedRoute, h7.1, h7.2] at hfix
  · exfalso; simp [isFixedRoute, h8.1, h8.2] at hfix
  · exfalso; simp [isFixedRoute, h9.1, h9.2] at hfix
  · exfalso; simp [isFixedRoute, h10.1, h10.2] at hfix
  · exfalso; rw [hnone] at h11; simp at h11
  · rfl

set_option maxHeartbeats 1000000 in
theorem routeRequest_proxied (url method : String) (targets : List (String × String))
    (hroute : routeRequest url method targets = .proxied) :
    (targets.find? (fun p => p.1 == (providerRest url).1)).isSome = true := by
  unfold routeRequest at hroute
  split_ifs at hroute with g1 g2 g3 g4 g5 g6 g7 g8 g9 g10 g11
  all_goals first | exact g11 | exact absurd hroute (by simp)

/-- C10: a request matching neither a fixed dashboard/API route nor (by
its first path segment) a key of the target map captured at startup is
routed to the 404 response — the proxy engine is not invoked; a request
routed to the proxy has a matching key in the router's map, and when the
proxy engine runs with that same map it always creates an entry, so its
internal unknown-provider 502 branch is unreachable unless the engine's
hot-swapped map has diverged from the router's. -/
theorem C10_router_gate (jp : String → Option JVal) (table : List (String × Price))
    (targets : List (String × String)) (store : Store) (req : ReqInfo)
    (uuid : String) (t0 t1 : Nat) (sc : UpstreamScenario) :
    (isFixedRoute req.url req.method = false →
       targets.find? (fun p => p.1 == (providerRest req.url).1) = none →
       routeRequest req.url req.method targets = .notFound ∧
       notFoundResponse =
         [.resWriteHead 404 [("content-type", "application/json")],
          .resEnd (some (errBody "Not found"))]) ∧
    (routeRequest req.url req.method targets = .proxied →
       (targets.find? (fun p => p.1 == (providerRest req.url).1)).isSome = true ∧
       (handleProxy jp table targets store req uuid t0 t1 sc).2.2 ≠ none) := by
  constructor
  · intro hfix hnone
    exact ⟨routeRequest_notFound req.url req.method targets hfix hnone, rfl⟩
  · intro hroute
    have g11 := routeRequest_proxied req.url req.method targets hroute
    refine ⟨g11, ?_⟩
    obtain ⟨kv, hkv⟩ := Option.isSome_iff_exists.mp g11
    rcases sc with msg | ⟨st, hd, ch, msg⟩ | ⟨st, hd, ch, se⟩
    · rw [handleProxy_known jp table targets store req uuid t0 t1 (.connError msg)
        kv hkv]
      simp
    · rw [handleProxy_known jp table targets store req uuid t0 t1
        (.respThenConnError st hd ch msg) kv hkv]
      simp
    · cases hsse : isSSEHeaders hd
      · rw [handleProxy_resp_buffered jp table targets store req uuid t0 t1 st hd ch se
          kv hkv hsse]
        cases se <;> simp
      · rw [handleProxy_resp_sse jp table targets store req uuid t0 t1 st hd ch se
          kv hkv hsse]
        cases se <;> simp

/-- Witness for C10: an unmatched request is routed 404; a matched one is
routed to the proxy, which creates an entry. -/
theorem C10_router_gate_witness :
    (routeRequest "/ghost/x" "POST" [("p", "http://u/api/v3")] = Route.notFound ∧
     notFoundResponse =
       [.resWriteHead 404 [("content-type", "application/json")],
        .resEnd (some (errBody "Not found"))]) ∧
    (([("p", "http://u/api/v3")].find?
        (fun p => p.1 == (providerRest "/p/x").1)).isSome = true ∧
     (handleProxy (fun _ => none) [] [("p", "http://u/api/v3")] emptyStore
        ⟨"/p/x", "POST", [], "", none⟩ "u1" 0 5 (.connError "e")).2.2 ≠ none) :=
  ⟨(C10_router_gate (fun _ => none) [] [("p", "http://u/api/v3")] emptyStore
      ⟨"/ghost/x", "POST", [], "", none⟩ "u1" 0 5 (.connError "e")).1
      (by decide) (by decide),
   (C10_router_gate (fun _ => none) [] [("p", "http://u/api/v3")] emptyStore
      ⟨"/p/x", "POST", [], "", none⟩ "u1" 0 5 (.connError "e")).2 (by rfl)⟩

end OCI
